import Mathlib

/-!
Formal verification of the `ga_voting_api` municipal e-voting backend.

The definitions below are a shallow embedding of the Python source:

* `authentication/crypto_utils.py` — fiscal-code normalization and SHA-256
  hashing, symmetric field encryption wrappers;
* `authentication/views.py` — the SPID login legs (state parameter encoding
  and the callback's citizen resolution phase);
* `voting/models.py`, `authentication/models.py` — the Django data model,
  including the declared field lists that govern `objects.create(...)` and
  `save(update_fields=...)`;
* `voting/serializers.py` — vote-cast validation and results aggregation;
* `voting/views.py` — the `CastVoteView.post` vote-commit operation.

Machine integers are modelled as `Nat` with explicit `% 2 ^ 32` where the
source's arithmetic wraps (SHA-256); time is an abstract `Nat` instant;
Django's database is an explicit record of row lists threaded through the
operations.
-/

namespace GaVoting

/-! ## Python string normalization (`crypto_utils.hash_fiscal_code` pipeline)

Strings are handled as their Unicode code-point sequences.  `str.strip()`
with no argument removes leading/trailing whitespace; the codes below cover
the ASCII whitespace class, which is what fiscal codes can contain.
`str.upper()` on the ASCII range maps `a-z` to `A-Z`. -/

/-- Python whitespace test (ASCII class: space, \t, \n, \r, \v, \f). -/
def isPyWs (n : Nat) : Bool :=
  n == 32 || n == 9 || n == 10 || n == 13 || n == 11 || n == 12

/-- Python `str.upper()` on one ASCII code point. -/
def upperCode (n : Nat) : Nat :=
  if 97 ≤ n ∧ n ≤ 122 then n - 32 else n

/-- Python `str.strip()` on a code-point sequence. -/
def stripCodes (l : List Nat) : List Nat :=
  ((l.dropWhile isPyWs).reverse.dropWhile isPyWs).reverse

/-- `fiscal_code.strip().upper()` from `hash_fiscal_code`. -/
def pyNormalize (l : List Nat) : List Nat :=
  (stripCodes l).map upperCode

/-- The code-point sequence of a Lean string. -/
def codes (s : String) : List Nat :=
  s.data.map Char.toNat

/-! ## UTF-8 encoding (`str.encode()`) -/

/-- UTF-8 encoding of a single code point. -/
def utf8EncodeCode (n : Nat) : List Nat :=
  if n < 128 then [n]
  else if n < 2048 then [192 + n / 64, 128 + n % 64]
  else if n < 65536 then [224 + n / 4096, 128 + n / 64 % 64, 128 + n % 64]
  else [240 + n / 262144, 128 + n / 4096 % 64, 128 + n / 64 % 64, 128 + n % 64]

/-- UTF-8 encoding of a code-point sequence. -/
def utf8Encode (l : List Nat) : List Nat :=
  l.flatMap utf8EncodeCode

/-! ## SHA-256 (`hashlib.sha256`), on byte lists, words as `Nat` mod `2 ^ 32` -/

/-- Word modulus. -/
def M32 : Nat := 4294967296

/-- Right rotation of a 32-bit word. -/
def rotr32 (n x : Nat) : Nat :=
  x / 2 ^ n + x % 2 ^ n * 2 ^ (32 - n)

/-- SHA-256 `Ch` function. -/
def shaCh (x y z : Nat) : Nat :=
  (x &&& y) ^^^ ((x ^^^ 4294967295) &&& z)

/-- SHA-256 `Maj` function. -/
def shaMaj (x y z : Nat) : Nat :=
  (x &&& y) ^^^ (x &&& z) ^^^ (y &&& z)

/-- SHA-256 σ₀. -/
def sSig0 (x : Nat) : Nat := rotr32 7 x ^^^ rotr32 18 x ^^^ (x >>> 3)

/-- SHA-256 σ₁. -/
def sSig1 (x : Nat) : Nat := rotr32 17 x ^^^ rotr32 19 x ^^^ (x >>> 10)

/-- SHA-256 Σ₀. -/
def bSig0 (x : Nat) : Nat := rotr32 2 x ^^^ rotr32 13 x ^^^ rotr32 22 x

/-- SHA-256 Σ₁. -/
def bSig1 (x : Nat) : Nat := rotr32 6 x ^^^ rotr32 11 x ^^^ rotr32 25 x

/-- SHA-256 round constants. -/
def shaK : List Nat :=
  [1116352408, 1899447441, 3049323471, 3921009573, 961987163, 1508970993,
   2453635748, 2870763221, 3624381080, 310598401, 607225278, 1426881987,
   1925078388, 2162078206, 2614888103, 3248222580, 3835390401, 4022224774,
   264347078, 604807628, 770255983, 1249150122, 1555081692, 1996064986,
   2554220882, 2821834349, 2952996808, 3210313671, 3336571891, 3584528711,
   113926993, 338241895, 666307205, 773529912, 1294757372, 1396182291,
   1695183700, 1986661051, 2177026350, 2456956037, 2730485921, 2820302411,
   3259730800, 3345764771, 3516065817, 3600352804, 4094571909, 275423344,
   430227734, 506948616, 659060556, 883997877, 958139571, 1322822218,
   1537002063, 1747873779, 1955562222, 2024104815, 2227730452, 2361852424,
   2428436474, 2756734187, 3204031479, 3329325298]

/-- SHA-256 initial hash values. -/
def shaH0 : List Nat :=
  [1779033703, 3144134277, 1013904242, 2773480762,
   1359893119, 2600822924, 528734635, 1541459225]

/-- `k` bytes of `n`, big endian. -/
def toBytesBE : Nat → Nat → List Nat
  | 0, _ => []
  | k + 1, n => toBytesBE k (n / 256) ++ [n % 256]

/-- SHA-256 message padding: `128`, zeros to 56 mod 64, 8-byte bit length. -/
def shaPad (msg : List Nat) : List Nat :=
  msg ++ [128] ++ List.replicate ((56 + 64 - (msg.length + 1) % 64) % 64) 0 ++
    toBytesBE 8 (8 * msg.length)

/-- Group bytes into big-endian 32-bit words. -/
def bytesToWordsBE : List Nat → List Nat
  | a :: b :: c :: d :: rest =>
      (((a * 256 + b) * 256 + c) * 256 + d) :: bytesToWordsBE rest
  | _ => []

/-- One message-schedule extension step (appends word `w.length`). -/
def scheduleStep (w : List Nat) : List Nat :=
  let i := w.length
  w ++ [(w.getD (i - 16) 0 + sSig0 (w.getD (i - 15) 0) +
         w.getD (i - 7) 0 + sSig1 (w.getD (i - 2) 0)) % M32]

/-- Full 64-word message schedule from the 16 chunk words. -/
def shaSchedule (w16 : List Nat) : List Nat :=
  scheduleStep^[48] w16

/-- The eight working registers of the compression loop. -/
structure ShaState where
  a : Nat
  b : Nat
  c : Nat
  d : Nat
  e : Nat
  f : Nat
  g : Nat
  hh : Nat
deriving DecidableEq

/-- One round of the SHA-256 compression loop. -/
def compressStep (st : ShaState) (kw : Nat × Nat) : ShaState :=
  let t1 := (st.hh + bSig1 st.e + shaCh st.e st.f st.g + kw.1 + kw.2) % M32
  let t2 := (bSig0 st.a + shaMaj st.a st.b st.c) % M32
  ⟨(t1 + t2) % M32, st.a, st.b, st.c, (st.d + t1) % M32, st.e, st.f, st.g⟩

/-- Process one 64-byte chunk against the running hash values. -/
def processChunk (hs : List Nat) (chunk : List Nat) : List Nat :=
  let w := shaSchedule (bytesToWordsBE chunk)
  let st := (shaK.zip w).foldl compressStep
    ⟨hs.getD 0 0, hs.getD 1 0, hs.getD 2 0, hs.getD 3 0,
     hs.getD 4 0, hs.getD 5 0, hs.getD 6 0, hs.getD 7 0⟩
  [(hs.getD 0 0 + st.a) % M32, (hs.getD 1 0 + st.b) % M32,
   (hs.getD 2 0 + st.c) % M32, (hs.getD 3 0 + st.d) % M32,
   (hs.getD 4 0 + st.e) % M32, (hs.getD 5 0 + st.f) % M32,
   (hs.getD 6 0 + st.g) % M32, (hs.getD 7 0 + st.hh) % M32]

/-- Split a byte list into 64-byte chunks (fuel = list length). -/
def splitChunksAux : Nat → List Nat → List (List Nat)
  | 0, _ => []
  | _, [] => []
  | fuel + 1, l => l.take 64 :: splitChunksAux fuel (l.drop 64)

/-- SHA-256 digest (32 bytes) of a byte list. -/
def sha256Bytes (msg : List Nat) : List Nat :=
  let padded := shaPad msg
  ((splitChunksAux padded.length padded).foldl processChunk shaH0).flatMap
    (toBytesBE 4)

/-- Lowercase hex digit. -/
def hexDigitChar (n : Nat) : Char :=
  if n < 10 then Char.ofNat (48 + n) else Char.ofNat (87 + n)

/-- Lowercase hex characters of a byte list. -/
def hexChars (l : List Nat) : List Char :=
  l.flatMap fun b => [hexDigitChar (b / 16), hexDigitChar (b % 16)]

/-- Lowercase hex string of a byte list (Python `hexdigest()`). -/
def toHexString (l : List Nat) : String :=
  ⟨hexChars l⟩

/-- `crypto_utils.hash_fiscal_code`: `None` on falsy input, else the SHA-256
hex digest of the stripped, uppercased fiscal code. -/
def hash_fiscal_code (s : String) : Option String :=
  if s = "" then none
  else some (toHexString (sha256Bytes (utf8Encode (pyNormalize (codes s)))))

example : sha256Bytes (utf8Encode (codes "abc")) =
    [186, 120, 22, 191, 143, 1, 207, 234,
     65, 65, 64, 222, 93, 174, 34, 35,
     176, 3, 97, 163, 150, 23, 122, 156,
     180, 16, 255, 97, 242, 0, 21, 173] := by decide

example : sha256Bytes [] =
    [227, 176, 196, 66, 152, 252, 28, 20,
     154, 251, 244, 200, 153, 111, 185, 36,
     39, 174, 65, 228, 100, 155, 147, 76,
     164, 149, 153, 27, 120, 82, 184, 85] := by decide

/-! ## Lemmas about normalization and the digest shape -/

/-- Hex digit test (lowercase, as `hexdigest` emits). -/
def isHexChar (c : Char) : Bool :=
  (48 ≤ c.toNat && c.toNat ≤ 57) || (97 ≤ c.toNat && c.toNat ≤ 102)

theorem dropWhile_idem (p : α → Bool) (l : List α) :
    (l.dropWhile p).dropWhile p = l.dropWhile p := by
  induction l with
  | nil => rfl
  | cons a t ih =>
    by_cases h : p a
    · simp [List.dropWhile_cons, h, ih]
    · simp [List.dropWhile_cons, h]

theorem dropWhile_prefix_eq (p : α → Bool) {l m : List α}
    (hl : l.dropWhile p = l) (hpre : m <+: l) : m.dropWhile p = m := by
  cases m with
  | nil => rfl
  | cons b t =>
    obtain ⟨r, hr⟩ := hpre
    subst hr
    by_cases hb : p b
    · exfalso
      rw [List.cons_append, List.dropWhile_cons, if_pos hb] at hl
      have hlen := congrArg List.length hl
      have hle := (List.dropWhile_sublist (l := t ++ r) p).length_le
      simp only [List.length_cons] at hlen
      omega
    · simp [List.dropWhile_cons, hb]

theorem stripCodes_idem (l : List Nat) :
    stripCodes (stripCodes l) = stripCodes l := by
  unfold stripCodes
  set m := l.dropWhile isPyWs with hm
  set A := m.reverse.dropWhile isPyWs with hA
  have hmA : A.reverse.dropWhile isPyWs = A.reverse := by
    apply dropWhile_prefix_eq isPyWs (l := m)
    · rw [hm]; exact dropWhile_idem _ _
    · have hsuf : A <:+ m.reverse := by rw [hA]; exact List.dropWhile_suffix _
      have := hsuf.reverse
      simpa using this
  rw [hmA, List.reverse_reverse, hA, dropWhile_idem]

theorem upperCode_idem (n : Nat) : upperCode (upperCode n) = upperCode n := by
  by_cases h : 97 ≤ n ∧ n ≤ 122
  · have h1 : upperCode n = n - 32 := by simp [upperCode, h]
    rw [h1, upperCode, if_neg (by omega)]
  · have h1 : upperCode n = n := by simp [upperCode, h]
    rw [h1]
    exact h1

theorem beqs_ws_false {m : Nat} (h : 33 ≤ m) :
    (m == 32 || m == 9 || m == 10 || m == 13 || m == 11 || m == 12) = false := by
  have h1 : (m == 32) = false := by simp; omega
  have h2 : (m == 9) = false := by simp; omega
  have h3 : (m == 10) = false := by simp; omega
  have h4 : (m == 13) = false := by simp; omega
  have h5 : (m == 11) = false := by simp; omega
  have h6 : (m == 12) = false := by simp; omega
  simp [h1, h2, h3, h4, h5, h6]

theorem isPyWs_upperCode (n : Nat) : isPyWs (upperCode n) = isPyWs n := by
  by_cases h : 97 ≤ n ∧ n ≤ 122
  · have h1 : upperCode n = n - 32 := by simp [upperCode, h]
    rw [h1, isPyWs, isPyWs, beqs_ws_false (by omega), beqs_ws_false (by omega)]
  · have h1 : upperCode n = n := by simp [upperCode, h]
    rw [h1]

theorem dropWhile_map_upper (l : List Nat) :
    (l.map upperCode).dropWhile isPyWs = (l.dropWhile isPyWs).map upperCode := by
  induction l with
  | nil => rfl
  | cons a t ih =>
    by_cases h : isPyWs a
    · have h' : isPyWs (upperCode a) = true := by rw [isPyWs_upperCode]; exact h
      simp [List.dropWhile_cons, h, h', ih]
    · have h' : isPyWs (upperCode a) = false := by
        rw [isPyWs_upperCode]; simpa using h
      simp [List.dropWhile_cons, h, h']

theorem stripCodes_map_upper (l : List Nat) :
    stripCodes (l.map upperCode) = (stripCodes l).map upperCode := by
  unfold stripCodes
  rw [dropWhile_map_upper, ← List.map_reverse, dropWhile_map_upper,
    ← List.map_reverse]

theorem pyNormalize_idem (l : List Nat) :
    pyNormalize (pyNormalize l) = pyNormalize l := by
  unfold pyNormalize
  rw [stripCodes_map_upper, stripCodes_idem, List.map_map]
  apply List.map_congr_left
  intro a _
  exact upperCode_idem a

theorem toBytesBE_length (k : Nat) : ∀ n, (toBytesBE k n).length = k := by
  induction k with
  | zero => intro n; rfl
  | succ k ih => intro n; simp [toBytesBE, ih]

theorem toBytesBE_lt (k : Nat) : ∀ n, ∀ b ∈ toBytesBE k n, b < 256 := by
  induction k with
  | zero => intro n b hb; simp [toBytesBE] at hb
  | succ k ih =>
    intro n b hb
    simp only [toBytesBE, List.mem_append, List.mem_singleton] at hb
    rcases hb with hb | hb
    · exact ih _ b hb
    · subst hb; exact Nat.mod_lt _ (by omega)

theorem processChunk_length (hs chunk : List Nat) :
    (processChunk hs chunk).length = 8 := rfl

theorem foldl_processChunk_length (cs : List (List Nat)) :
    ∀ hs : List Nat, hs.length = 8 → (cs.foldl processChunk hs).length = 8 := by
  induction cs with
  | nil => intro hs h; exact h
  | cons c t ih => intro hs _; exact ih _ (processChunk_length _ _)

theorem flatMap_toBytesBE4_length (l : List Nat) :
    (l.flatMap (toBytesBE 4)).length = 4 * l.length := by
  induction l with
  | nil => rfl
  | cons a t ih =>
    simp only [List.flatMap_cons, List.length_append, toBytesBE_length,
      List.length_cons, ih]
    omega

theorem sha256Bytes_length (msg : List Nat) : (sha256Bytes msg).length = 32 := by
  unfold sha256Bytes
  rw [flatMap_toBytesBE4_length,
    foldl_processChunk_length (splitChunksAux (shaPad msg).length (shaPad msg))
      shaH0 (by rfl)]

theorem sha256Bytes_lt (msg : List Nat) : ∀ b ∈ sha256Bytes msg, b < 256 := by
  intro b hb
  unfold sha256Bytes at hb
  rw [List.mem_flatMap] at hb
  obtain ⟨w, _, hbw⟩ := hb
  exact toBytesBE_lt 4 w b hbw

theorem hexChars_length (l : List Nat) : (hexChars l).length = 2 * l.length := by
  induction l with
  | nil => rfl
  | cons a t ih =>
    have hc : hexChars (a :: t)
        = hexDigitChar (a / 16) :: hexDigitChar (a % 16) :: hexChars t := rfl
    rw [hc, List.length_cons, List.length_cons, ih, List.length_cons]
    omega

theorem hexDigitChar_hex : ∀ n, n < 16 → isHexChar (hexDigitChar n) = true := by
  decide

theorem hexChars_hex (l : List Nat) (hl : ∀ b ∈ l, b < 256) :
    ∀ c ∈ hexChars l, isHexChar c = true := by
  intro c hc
  rw [hexChars, List.mem_flatMap] at hc
  obtain ⟨b, hb, hcb⟩ := hc
  have hb256 := hl b hb
  simp only [List.mem_cons, List.mem_singleton, List.not_mem_nil,
    or_false] at hcb
  rcases hcb with h | h <;> subst h
  · exact hexDigitChar_hex _ (by omega)
  · exact hexDigitChar_hex _ (Nat.mod_lt _ (by omega))

/-- C8: for every nonempty fiscal code string, `hash_fiscal_code` returns the
64-hex-character SHA-256 digest of the normalized (whitespace-stripped,
uppercased) input; it is deterministic (a pure function of the normalized
code points), and any casing/whitespace variant of the same fiscal code
yields the same digest as the normalized form itself. -/
theorem C8_hash_fiscal_code_spec (s : String) (hne : s ≠ "") :
    hash_fiscal_code s
      = some (toHexString (sha256Bytes (utf8Encode (pyNormalize (codes s))))) ∧
    (∀ d, hash_fiscal_code s = some d →
      d.length = 64 ∧ ∀ c ∈ d.data, isHexChar c = true) ∧
    (∀ t : String, t ≠ "" → pyNormalize (codes t) = pyNormalize (codes s) →
      hash_fiscal_code t = hash_fiscal_code s) ∧
    (∀ u : String, u ≠ "" → codes u = pyNormalize (codes s) →
      hash_fiscal_code u = hash_fiscal_code s) := by
  have hmain : hash_fiscal_code s
      = some (toHexString (sha256Bytes (utf8Encode (pyNormalize (codes s))))) := by
    unfold hash_fiscal_code
    rw [if_neg hne]
  refine ⟨hmain, ?_, ?_, ?_⟩
  · intro d hd
    rw [hmain] at hd
    have hd' : d = toHexString (sha256Bytes (utf8Encode (pyNormalize (codes s)))) :=
      (Option.some.injEq _ _ ▸ hd).symm
    subst hd'
    constructor
    · show (hexChars (sha256Bytes (utf8Encode (pyNormalize (codes s))))).length = 64
      rw [hexChars_length, sha256Bytes_length]
    · intro c hc
      exact hexChars_hex _ (sha256Bytes_lt _) c hc
  · intro t ht hnorm
    unfold hash_fiscal_code
    rw [if_neg ht, if_neg hne, hnorm]
  · intro u hu hc
    unfold hash_fiscal_code
    rw [if_neg hu, if_neg hne, hc, pyNormalize_idem]

/-- Witness for C8 at the documented example fiscal code. -/
theorem C8_hash_fiscal_code_spec_witness :
    hash_fiscal_code "RSSMRA80A01H501Z"
      = some (toHexString (sha256Bytes
          (utf8Encode (pyNormalize (codes "RSSMRA80A01H501Z"))))) :=
  (C8_hash_fiscal_code_spec "RSSMRA80A01H501Z" (by decide)).1

/-! ## UTF-8 decoding (`bytes.decode()`), inverse of `utf8Encode` -/

/-- Decode a single UTF-8 code point off the front of a byte list. -/
def utf8DecodeOne (l : List Nat) : Option (Nat × List Nat) :=
  match l with
  | [] => none
  | b :: rest =>
    if b < 128 then some (b, rest)
    else if 192 ≤ b ∧ b < 224 then
      match rest with
      | b2 :: rest2 =>
        if 128 ≤ b2 ∧ b2 < 192 then
          some ((b - 192) * 64 + (b2 - 128), rest2)
        else none
      | [] => none
    else if 224 ≤ b ∧ b < 240 then
      match rest with
      | b2 :: b3 :: rest3 =>
        if (128 ≤ b2 ∧ b2 < 192) ∧ (128 ≤ b3 ∧ b3 < 192) then
          some ((b - 224) * 4096 + (b2 - 128) * 64 + (b3 - 128), rest3)
        else none
      | _ => none
    else if 240 ≤ b ∧ b < 248 then
      match rest with
      | b2 :: b3 :: b4 :: rest4 =>
        if (128 ≤ b2 ∧ b2 < 192) ∧ (128 ≤ b3 ∧ b3 < 192) ∧
            (128 ≤ b4 ∧ b4 < 192) then
          some ((b - 240) * 262144 + (b2 - 128) * 4096 +
            (b3 - 128) * 64 + (b4 - 128), rest4)
        else none
      | _ => none
    else none

/-- Fuelled UTF-8 decode loop. -/
def utf8DecodeAux : Nat → List Nat → Option (List Nat)
  | _, [] => some []
  | 0, _ :: _ => none
  | fuel + 1, b :: rest =>
    match utf8DecodeOne (b :: rest) with
    | none => none
    | some (n, rest2) => (utf8DecodeAux fuel rest2).map (n :: ·)

/-- UTF-8 decoding of a byte list into code points (`None` on invalid data). -/
def utf8Decode (l : List Nat) : Option (List Nat) :=
  utf8DecodeAux l.length l

theorem utf8EncodeCode_lt (n : Nat) (h : n < 1114112) :
    ∀ b ∈ utf8EncodeCode n, b < 256 := by
  intro b hb
  unfold utf8EncodeCode at hb
  split at hb
  · simp at hb; omega
  · split at hb
    · simp at hb
      rcases hb with h1 | h1 <;> omega
    · split at hb
      · simp at hb
        rcases hb with h1 | h1 | h1 <;> omega
      · simp at hb
        rcases hb with h1 | h1 | h1 | h1 <;> omega

theorem utf8Encode_lt (l : List Nat) (h : ∀ n ∈ l, n < 1114112) :
    ∀ b ∈ utf8Encode l, b < 256 := by
  intro b hb
  rw [utf8Encode, List.mem_flatMap] at hb
  obtain ⟨n, hn, hbn⟩ := hb
  exact utf8EncodeCode_lt n (h n hn) b hbn

theorem utf8EncodeCode_ne_nil (n : Nat) : utf8EncodeCode n ≠ [] := by
  unfold utf8EncodeCode
  split
  · simp
  · split
    · simp
    · split <;> simp

theorem utf8DecodeOne_encode (n : Nat) (hn : n < 1114112) (rest : List Nat) :
    utf8DecodeOne (utf8EncodeCode n ++ rest) = some (n, rest) := by
  unfold utf8EncodeCode
  by_cases h1 : n < 128
  · rw [if_pos h1, List.cons_append, List.nil_append]
    simp only [utf8DecodeOne]
    rw [if_pos h1]
  · rw [if_neg h1]
    by_cases h2 : n < 2048
    · rw [if_pos h2]
      simp only [List.cons_append, List.nil_append]
      simp only [utf8DecodeOne]
      rw [if_neg (by omega), if_pos (by omega), if_pos (by omega)]
      have hv : (192 + n / 64 - 192) * 64 + (128 + n % 64 - 128) = n := by
        omega
      rw [hv]
    · rw [if_neg h2]
      by_cases h3 : n < 65536
      · rw [if_pos h3]
        simp only [List.cons_append, List.nil_append]
        simp only [utf8DecodeOne]
        rw [if_neg (by omega), if_neg (by omega), if_pos (by omega),
          if_pos (by constructor <;> constructor <;> omega)]
        have hv : (224 + n / 4096 - 224) * 4096 +
            (128 + n / 64 % 64 - 128) * 64 + (128 + n % 64 - 128) = n := by
          omega
        rw [hv]
      · rw [if_neg h3]
        simp only [List.cons_append, List.nil_append]
        simp only [utf8DecodeOne]
        rw [if_neg (by omega), if_neg (by omega), if_neg (by omega),
          if_pos (by omega)]
        rw [if_pos (by refine ⟨⟨?_, ?_⟩, ⟨?_, ?_⟩, ?_, ?_⟩ <;> omega)]
        have hv : (240 + n / 262144 - 240) * 262144 +
            (128 + n / 4096 % 64 - 128) * 4096 +
            (128 + n / 64 % 64 - 128) * 64 + (128 + n % 64 - 128) = n := by
          omega
        rw [hv]

theorem utf8DecodeAux_encode :
    ∀ fuel (l : List Nat), (∀ n ∈ l, n < 1114112) → l.length ≤ fuel →
      utf8DecodeAux fuel (utf8Encode l) = some l := by
  intro fuel
  induction fuel with
  | zero =>
    intro l h hl
    cases l with
    | nil => rfl
    | cons a t => simp at hl
  | succ f ih =>
    intro l h hl
    cases l with
    | nil => rfl
    | cons a t =>
      have ha : a < 1114112 := h a (by simp)
      have ht : ∀ n ∈ t, n < 1114112 := fun n hn => h n (by simp [hn])
      have henc : utf8Encode (a :: t) = utf8EncodeCode a ++ utf8Encode t := by
        rw [utf8Encode, List.flatMap_cons, ← utf8Encode]
      obtain ⟨b, bs, hbs⟩ :
          ∃ b bs, utf8EncodeCode a = b :: bs := by
        cases hc : utf8EncodeCode a with
        | nil => exact absurd hc (utf8EncodeCode_ne_nil a)
        | cons b bs => exact ⟨b, bs, rfl⟩
      rw [henc, hbs, List.cons_append]
      show utf8DecodeAux (f + 1) (b :: (bs ++ utf8Encode t)) = some (a :: t)
      rw [utf8DecodeAux, ← List.cons_append, ← hbs,
        utf8DecodeOne_encode a ha]
      show (utf8DecodeAux f (utf8Encode t)).map (a :: ·) = some (a :: t)
      rw [ih t ht (by simpa using hl)]
      rfl

theorem utf8Encode_length_ge (l : List Nat) :
    l.length ≤ (utf8Encode l).length := by
  induction l with
  | nil => simp
  | cons a t ih =>
    rw [utf8Encode, List.flatMap_cons, ← utf8Encode, List.length_append,
      List.length_cons]
    obtain ⟨b, bs, hbs⟩ : ∃ b bs, utf8EncodeCode a = b :: bs := by
      cases hc : utf8EncodeCode a with
      | nil => exact absurd hc (utf8EncodeCode_ne_nil a)
      | cons b bs => exact ⟨b, bs, rfl⟩
    rw [hbs]
    simp only [List.length_cons]
    omega

theorem utf8Decode_encode (l : List Nat) (h : ∀ n ∈ l, n < 1114112) :
    utf8Decode (utf8Encode l) = some l :=
  utf8DecodeAux_encode (utf8Encode l).length l h (utf8Encode_length_ge l)

/-! ## base64url (`base64.urlsafe_b64encode` / `urlsafe_b64decode`) -/

/-- The URL-safe base64 character for a sextet. -/
def b64Char (n : Nat) : Nat :=
  if n < 26 then 65 + n
  else if n < 52 then 97 + (n - 26)
  else if n < 62 then 48 + (n - 52)
  else if n = 62 then 45
  else 95

/-- Index of a URL-safe base64 character (`none` outside the alphabet). -/
def b64Index (c : Nat) : Option Nat :=
  if 65 ≤ c ∧ c ≤ 90 then some (c - 65)
  else if 97 ≤ c ∧ c ≤ 122 then some (26 + (c - 97))
  else if 48 ≤ c ∧ c ≤ 57 then some (52 + (c - 48))
  else if c = 45 then some 62
  else if c = 95 then some 63
  else none

/-- base64url-encode a byte list, `=`-padded, as ASCII code points. -/
def b64Encode : List Nat → List Nat
  | [] => []
  | [a] => [b64Char (a / 4), b64Char (a % 4 * 16), 61, 61]
  | [a, b] =>
      [b64Char (a / 4), b64Char (a % 4 * 16 + b / 16), b64Char (b % 16 * 4), 61]
  | a :: b :: c :: rest =>
      b64Char (a / 4) :: b64Char (a % 4 * 16 + b / 16) ::
      b64Char (b % 16 * 4 + c / 64) :: b64Char (c % 64) :: b64Encode rest

/-- Decode one four-character base64 group (padding only at the end). -/
def b64DecodeGroup (g : List Nat) : Option (List Nat) :=
  match g with
  | [c1, c2, c3, c4] =>
    match b64Index c1, b64Index c2 with
    | some i1, some i2 =>
      if c3 = 61 ∧ c4 = 61 then some [i1 * 4 + i2 / 16]
      else if c4 = 61 then
        match b64Index c3 with
        | some i3 => some [i1 * 4 + i2 / 16, i2 % 16 * 16 + i3 / 4]
        | none => none
      else
        match b64Index c3, b64Index c4 with
        | some i3, some i4 =>
            some [i1 * 4 + i2 / 16, i2 % 16 * 16 + i3 / 4, i3 % 4 * 64 + i4]
        | _, _ => none
    | _, _ => none
  | _ => none

/-- Decode base64 groups; `=` terminates (valid only in the last group). -/
def b64DecodeAux : Nat → List Nat → Option (List Nat)
  | _, [] => some []
  | 0, _ => none
  | fuel + 1, l =>
    match b64DecodeGroup (l.take 4) with
    | none => none
    | some bs =>
      if (l.take 4).contains 61 ∧ l.drop 4 ≠ [] then none
      else
        match b64DecodeAux fuel (l.drop 4) with
        | none => none
        | some rest => some (bs ++ rest)

/-- Model of `base64.urlsafe_b64decode`: CPython discards characters outside
the base64 alphabet, then requires a multiple of four and decodes. -/
def urlsafeB64Decode (s : List Nat) : Option (List Nat) :=
  let t := s.filter fun c => (b64Index c).isSome || c == 61
  if t.length % 4 = 0 then b64DecodeAux t.length t else none

theorem b64Index_b64Char : ∀ n, n < 64 → b64Index (b64Char n) = some n := by
  decide

theorem b64Char_ne_61 : ∀ n, n < 64 → (b64Char n == 61) = false := by
  decide

theorem b64Encode_length_mod (l : List Nat) : (b64Encode l).length % 4 = 0 := by
  match l with
  | [] => rfl
  | [a] => rw [b64Encode]; simp
  | [a, b] => rw [b64Encode]; simp
  | a :: b :: c :: rest =>
    have ih := b64Encode_length_mod rest
    rw [b64Encode]
    simp only [List.length_cons]
    omega

theorem b64Encode_chars (l : List Nat) (hl : ∀ b ∈ l, b < 256) :
    ∀ c ∈ b64Encode l, ((b64Index c).isSome || c == 61) = true := by
  match l with
  | [] => intro c hc; simp [b64Encode] at hc
  | [a] =>
    intro c hc
    have ha : a < 256 := hl a (by simp)
    rw [b64Encode] at hc
    simp only [List.mem_cons, List.not_mem_nil, or_false] at hc
    rcases hc with h | h | h | h <;> subst h
    · rw [b64Index_b64Char (a / 4) (by omega)]; rfl
    · rw [b64Index_b64Char (a % 4 * 16) (by omega)]; rfl
    · decide
    · decide
  | [a, b] =>
    intro c hc
    have ha : a < 256 := hl a (by simp)
    have hb : b < 256 := hl b (by simp)
    rw [b64Encode] at hc
    simp only [List.mem_cons, List.not_mem_nil, or_false] at hc
    rcases hc with h | h | h | h <;> subst h
    · rw [b64Index_b64Char (a / 4) (by omega)]; rfl
    · rw [b64Index_b64Char (a % 4 * 16 + b / 16) (by omega)]; rfl
    · rw [b64Index_b64Char (b % 16 * 4) (by omega)]; rfl
    · decide
  | a :: b :: c' :: rest =>
    intro c hc
    have ha : a < 256 := hl a (by simp)
    have hb : b < 256 := hl b (by simp)
    have hc' : c' < 256 := hl c' (by simp)
    have hrest : ∀ x ∈ rest, x < 256 := fun x hx => hl x (by simp [hx])
    rw [b64Encode] at hc
    simp only [List.mem_cons] at hc
    rcases hc with h | h | h | h | h
    · subst h; rw [b64Index_b64Char (a / 4) (by omega)]; rfl
    · subst h; rw [b64Index_b64Char (a % 4 * 16 + b / 16) (by omega)]; rfl
    · subst h; rw [b64Index_b64Char (b % 16 * 4 + c' / 64) (by omega)]; rfl
    · subst h; rw [b64Index_b64Char (c' % 64) (by omega)]; rfl
    · exact b64Encode_chars rest hrest c h

theorem b64Char_ne_61' : ∀ n, n < 64 → b64Char n ≠ 61 := by
  decide

theorem b64DecodeGroup_one (a : Nat) (ha : a < 256) :
    b64DecodeGroup [b64Char (a / 4), b64Char (a % 4 * 16), 61, 61]
      = some [a] := by
  have h1 := b64Index_b64Char (a / 4) (by omega)
  have h2 := b64Index_b64Char (a % 4 * 16) (by omega)
  simp [b64DecodeGroup, h1, h2]
  omega

theorem b64DecodeGroup_two (a b : Nat) (ha : a < 256) (hb : b < 256) :
    b64DecodeGroup [b64Char (a / 4), b64Char (a % 4 * 16 + b / 16),
      b64Char (b % 16 * 4), 61] = some [a, b] := by
  have h1 := b64Index_b64Char (a / 4) (by omega)
  have h2 := b64Index_b64Char (a % 4 * 16 + b / 16) (by omega)
  have h3 := b64Index_b64Char (b % 16 * 4) (by omega)
  have hne := b64Char_ne_61' (b % 16 * 4) (by omega)
  simp [b64DecodeGroup, h1, h2, h3, hne]
  omega

theorem b64DecodeGroup_full (a b c : Nat) (ha : a < 256) (hb : b < 256)
    (hc : c < 256) :
    b64DecodeGroup [b64Char (a / 4), b64Char (a % 4 * 16 + b / 16),
      b64Char (b % 16 * 4 + c / 64), b64Char (c % 64)] = some [a, b, c] := by
  have h1 := b64Index_b64Char (a / 4) (by omega)
  have h2 := b64Index_b64Char (a % 4 * 16 + b / 16) (by omega)
  have h3 := b64Index_b64Char (b % 16 * 4 + c / 64) (by omega)
  have h4 := b64Index_b64Char (c % 64) (by omega)
  have hne3 := b64Char_ne_61' (b % 16 * 4 + c / 64) (by omega)
  have hne4 := b64Char_ne_61' (c % 64) (by omega)
  simp [b64DecodeGroup, h1, h2, h3, h4, hne3, hne4]
  omega

theorem b64DecodeAux_encode :
    ∀ fuel (l : List Nat), (∀ b ∈ l, b < 256) →
      (b64Encode l).length ≤ fuel →
      b64DecodeAux fuel (b64Encode l) = some l := by
  intro fuel
  induction fuel with
  | zero =>
    intro l h hfuel
    match l with
    | [] => rfl
    | [a] => simp [b64Encode] at hfuel
    | [a, b] => simp [b64Encode] at hfuel
    | a :: b :: c :: rest => simp [b64Encode] at hfuel
  | succ f ih =>
    intro l h hfuel
    match l with
    | [] => rfl
    | [a] =>
      have ha : a < 256 := h a (by simp)
      show b64DecodeAux (f + 1)
        [b64Char (a / 4), b64Char (a % 4 * 16), 61, 61] = some [a]
      rw [b64DecodeAux]
      rw [show List.take 4 [b64Char (a / 4), b64Char (a % 4 * 16), 61, 61]
        = [b64Char (a / 4), b64Char (a % 4 * 16), 61, 61] from rfl]
      rw [b64DecodeGroup_one a ha]
      rw [show List.drop 4 [b64Char (a / 4), b64Char (a % 4 * 16), 61, 61]
        = [] from rfl]
      simp [b64DecodeAux]
      exact fun hx => List.noConfusion hx
    | [a, b] =>
      have ha : a < 256 := h a (by simp)
      have hb : b < 256 := h b (by simp)
      show b64DecodeAux (f + 1) [b64Char (a / 4), b64Char (a % 4 * 16 + b / 16),
        b64Char (b % 16 * 4), 61] = some [a, b]
      rw [b64DecodeAux]
      rw [show List.take 4 [b64Char (a / 4), b64Char (a % 4 * 16 + b / 16),
        b64Char (b % 16 * 4), 61]
        = [b64Char (a / 4), b64Char (a % 4 * 16 + b / 16),
          b64Char (b % 16 * 4), 61] from rfl]
      rw [b64DecodeGroup_two a b ha hb]
      rw [show List.drop 4 [b64Char (a / 4), b64Char (a % 4 * 16 + b / 16),
        b64Char (b % 16 * 4), 61] = [] from rfl]
      simp [b64DecodeAux]
      exact fun hx => List.noConfusion hx
    | a :: b :: c :: rest =>
      have ha : a < 256 := h a (by simp)
      have hb : b < 256 := h b (by simp)
      have hc : c < 256 := h c (by simp)
      have hrest : ∀ x ∈ rest, x < 256 := fun x hx => h x (by simp [hx])
      rw [b64Encode]
      rw [b64DecodeAux]
      rw [show List.take 4 (b64Char (a / 4) :: b64Char (a % 4 * 16 + b / 16) ::
        b64Char (b % 16 * 4 + c / 64) :: b64Char (c % 64) :: b64Encode rest)
        = [b64Char (a / 4), b64Char (a % 4 * 16 + b / 16),
          b64Char (b % 16 * 4 + c / 64), b64Char (c % 64)] from rfl]
      rw [show List.drop 4 (b64Char (a / 4) :: b64Char (a % 4 * 16 + b / 16) ::
        b64Char (b % 16 * 4 + c / 64) :: b64Char (c % 64) :: b64Encode rest)
        = b64Encode rest from rfl]
      rw [b64DecodeGroup_full a b c ha hb hc]
      have hfuel' : (b64Encode rest).length ≤ f := by
        rw [b64Encode] at hfuel
        simp only [List.length_cons] at hfuel
        omega
      have hcont : ([b64Char (a / 4), b64Char (a % 4 * 16 + b / 16),
          b64Char (b % 16 * 4 + c / 64), b64Char (c % 64)].contains 61)
            = false := by
        rw [List.contains_cons, List.contains_cons, List.contains_cons,
          List.contains_cons, List.contains_nil]
        rw [show ((61 : Nat) == b64Char (a / 4)) = false from
          beq_eq_false_iff_ne.mpr fun hx =>
            b64Char_ne_61' (a / 4) (by omega) hx.symm]
        rw [show ((61 : Nat) == b64Char (a % 4 * 16 + b / 16)) = false from
          beq_eq_false_iff_ne.mpr fun hx =>
            b64Char_ne_61' (a % 4 * 16 + b / 16) (by omega) hx.symm]
        rw [show ((61 : Nat) == b64Char (b % 16 * 4 + c / 64)) = false from
          beq_eq_false_iff_ne.mpr fun hx =>
            b64Char_ne_61' (b % 16 * 4 + c / 64) (by omega) hx.symm]
        rw [show ((61 : Nat) == b64Char (c % 64)) = false from
          beq_eq_false_iff_ne.mpr fun hx =>
            b64Char_ne_61' (c % 64) (by omega) hx.symm]
        rfl
      simp [hcont, ih rest hrest hfuel']
      intro hx
      rcases hx with hx | hx | hx | hx <;>
        exact absurd hx.symm (b64Char_ne_61' _ (by omega))
      exact fun hx => List.noConfusion hx

theorem urlsafeB64Decode_encode (l : List Nat) (h : ∀ b ∈ l, b < 256) :
    urlsafeB64Decode (b64Encode l) = some l := by
  unfold urlsafeB64Decode
  rw [List.filter_eq_self.mpr (b64Encode_chars l h)]
  rw [if_pos (b64Encode_length_mod l)]
  exact b64DecodeAux_encode (b64Encode l).length l h le_rfl

/-! ## The state parameter (`SPIDLoginView.get` / `SPIDCallbackView.post`)

The state is `base64.urlsafe_b64encode(json.dumps(payload).encode())` for
`payload = dict(voting_session_id=..., timestamp=..., nonce=...)`; the
callback reverses the chain with `urlsafe_b64decode`, `.decode()`,
`json.loads` and `.get('voting_session_id')`.  The JSON printer/parser below
model `json.dumps`/`json.loads` on flat objects of ints and strings (the
only shapes the state traffic contains); escape sequences are not modelled
because `secrets.token_urlsafe` nonces never contain `"` or `\\`. -/

/-- JSON values occurring in the state payload. -/
inductive JVal where
  | num (n : Nat)
  | str (s : List Nat)
deriving DecidableEq

/-- Decimal digit code points of a natural number (`str(int)`). -/
def natDigitsAux : Nat → Nat → List Nat
  | 0, _ => []
  | fuel + 1, n =>
    if n < 10 then [48 + n] else natDigitsAux fuel (n / 10) ++ [48 + n % 10]

/-- Decimal digit code points of a natural number. -/
def natDigits (n : Nat) : List Nat := natDigitsAux (n + 1) n

/-- The state payload built by `SPIDLoginView.get` (nonce as code points). -/
structure StatePayload where
  voting_session_id : Nat
  timestamp : Nat
  nonce : List Nat
deriving DecidableEq

/-- `json.dumps` of the state dict: insertion order, default separators. -/
def jsonDumpsState (p : StatePayload) : List Nat :=
  codes "\x7b\"voting_session_id\": " ++ natDigits p.voting_session_id ++
  codes ", \"timestamp\": " ++ natDigits p.timestamp ++
  codes ", \"nonce\": \"" ++ p.nonce ++ codes "\"\x7d"

/-- The `state` query parameter produced by login leg 1 (ASCII codes). -/
def loginStateParam (p : StatePayload) : List Nat :=
  b64Encode (utf8Encode (jsonDumpsState p))

/-- JSON whitespace. -/
def jsonWs (c : Nat) : Bool := c == 32 || c == 9 || c == 10 || c == 13

/-- Skip JSON whitespace. -/
def skipWs (l : List Nat) : List Nat := l.dropWhile jsonWs

/-- ASCII digit test. -/
def isDigitCode (c : Nat) : Bool := 48 ≤ c && c ≤ 57

/-- Decimal value of a digit-code list. -/
def digitsVal (ds : List Nat) : Nat :=
  ds.foldl (fun acc d => acc * 10 + (d - 48)) 0

/-- Parse a nonnegative JSON integer. -/
def parseNum (l : List Nat) : Option (Nat × List Nat) :=
  let ds := l.takeWhile isDigitCode
  if ds = [] then none else some (digitsVal ds, l.dropWhile isDigitCode)

/-- Parse a JSON string body after the opening quote (no escapes). -/
def parseStr : List Nat → Option (List Nat × List Nat)
  | [] => none
  | c :: rest =>
    if c = 34 then some ([], rest)
    else if c = 92 then none
    else
      match parseStr rest with
      | some (s, rest2) => some (c :: s, rest2)
      | none => none

/-- Parse a JSON value (string or nonnegative integer). -/
def parseValue (l : List Nat) : Option (JVal × List Nat) :=
  match l with
  | [] => none
  | c :: rest =>
    if c = 34 then
      match parseStr rest with
      | some (s, r) => some (JVal.str s, r)
      | none => none
    else if isDigitCode c then
      match parseNum l with
      | some (n, r) => some (JVal.num n, r)
      | none => none
    else none

/-- Parse the members of a JSON object after the opening brace. -/
def parseMembers : Nat → List Nat → Option (List (List Nat × JVal) × List Nat)
  | 0, _ => none
  | fuel + 1, l =>
    match skipWs l with
    | [] => none
    | c :: rest =>
      if c = 34 then
        match parseStr rest with
        | none => none
        | some (key, rest2) =>
          match skipWs rest2 with
          | [] => none
          | c2 :: rest3 =>
            if c2 = 58 then
              match parseValue (skipWs rest3) with
              | none => none
              | some (v, rest4) =>
                match skipWs rest4 with
                | [] => none
                | c3 :: rest5 =>
                  if c3 = 44 then
                    match parseMembers fuel rest5 with
                    | none => none
                    | some (ms, rest6) => some ((key, v) :: ms, rest6)
                  else if c3 = 125 then some ([(key, v)], rest5)
                  else none
            else none
      else none

/-- `json.loads` on a flat object, requiring full consumption. -/
def parseJsonObject (l : List Nat) : Option (List (List Nat × JVal)) :=
  match skipWs l with
  | [] => none
  | c :: rest =>
    if c = 123 then
      match skipWs rest with
      | [] => none
      | c2 :: rest2 =>
        if c2 = 125 then (if skipWs rest2 = [] then some [] else none)
        else
          match parseMembers (rest.length + 1) rest with
          | some (ms, rest3) => if skipWs rest3 = [] then some ms else none
          | none => none
    else none

/-- `dict.get` after `json.loads` (duplicate keys: last wins). -/
def lookupMember : List (List Nat × JVal) → List Nat → Option JVal
  | [], _ => none
  | (k, v) :: rest, key =>
    match lookupMember rest key with
    | some v2 => some v2
    | none => if k = key then some v else none

/-- Outcome of the state-handling prefix of `SPIDCallbackView.post`. -/
inductive StateOutcome where
  | missingState
  | invalidState
  | decoded (voting_session_id : Nat)
deriving DecidableEq

/-- Steps 1-2 of `SPIDCallbackView.post`: extract and decode `state`.
Any failure inside the decode block is caught and surfaced as the 400
`Invalid state parameter` response; a missing parameter is the 400
`Invalid callback` response; `voting_session_id` falsy (absent or zero)
also raises inside the block. -/
def callbackDecodeState (state : Option (List Nat)) : StateOutcome :=
  match state with
  | none => .missingState
  | some s =>
    match urlsafeB64Decode s with
    | none => .invalidState
    | some bytes =>
      match utf8Decode bytes with
      | none => .invalidState
      | some cps =>
        match parseJsonObject cps with
        | none => .invalidState
        | some ms =>
          match lookupMember ms (codes "voting_session_id") with
          | some (JVal.num n) => if n = 0 then .invalidState else .decoded n
          | _ => .invalidState

/-! ## Parser lemmas: `json.loads` inverts `json.dumps` on the state shape -/

theorem skipWs_cons_not (c : Nat) (rest : List Nat) (h : jsonWs c = false) :
    skipWs (c :: rest) = c :: rest := by
  simp [skipWs, List.dropWhile_cons, h]

theorem skipWs_cons_ws (c : Nat) (rest : List Nat) (h : jsonWs c = true) :
    skipWs (c :: rest) = skipWs rest := by
  simp [skipWs, List.dropWhile_cons, h]

theorem natDigitsAux_digits :
    ∀ fuel n, ∀ d ∈ natDigitsAux fuel n, 48 ≤ d ∧ d ≤ 57 := by
  intro fuel
  induction fuel with
  | zero => intro n d hd; simp [natDigitsAux] at hd
  | succ f ih =>
    intro n d hd
    by_cases h10 : n < 10
    · rw [natDigitsAux, if_pos h10] at hd
      simp at hd
      omega
    · rw [natDigitsAux, if_neg h10] at hd
      simp only [List.mem_append, List.mem_singleton] at hd
      rcases hd with h | h
      · exact ih _ d h
      · subst h
        omega

theorem natDigits_digits (n : Nat) : ∀ d ∈ natDigits n, 48 ≤ d ∧ d ≤ 57 :=
  natDigitsAux_digits (n + 1) n

theorem natDigits_ne_nil (n : Nat) : natDigits n ≠ [] := by
  unfold natDigits natDigitsAux
  by_cases h10 : n < 10
  · rw [if_pos h10]; simp
  · rw [if_neg h10]; simp

theorem digitsVal_append_digit (xs : List Nat) (d : Nat) :
    digitsVal (xs ++ [d]) = digitsVal xs * 10 + (d - 48) := by
  unfold digitsVal
  rw [List.foldl_append]
  rfl

theorem natDigitsAux_val :
    ∀ fuel n, n < 10 ^ fuel → digitsVal (natDigitsAux fuel n) = n := by
  intro fuel
  induction fuel with
  | zero =>
    intro n hn
    simp only [pow_zero, Nat.lt_one_iff] at hn
    subst hn
    rfl
  | succ f ih =>
    intro n hn
    by_cases h10 : n < 10
    · rw [natDigitsAux, if_pos h10]
      show digitsVal [48 + n] = n
      unfold digitsVal
      simp
    · rw [natDigitsAux, if_neg h10, digitsVal_append_digit]
      have hdiv : n / 10 < 10 ^ f := by
        rw [pow_succ] at hn
        omega
      rw [ih (n / 10) hdiv]
      omega

theorem natDigits_val (n : Nat) : digitsVal (natDigits n) = n := by
  apply natDigitsAux_val
  calc n < 10 ^ n := Nat.lt_pow_self (by omega) n
    _ ≤ 10 ^ (n + 1) := Nat.pow_le_pow_right (by omega) (by omega)

theorem takeWhile_append_of_all (p : Nat → Bool) (l rest : List Nat)
    (hl : ∀ x ∈ l, p x = true)
    (hr : rest = [] ∨ ∃ a t, rest = a :: t ∧ p a = false) :
    (l ++ rest).takeWhile p = l ∧ (l ++ rest).dropWhile p = rest := by
  induction l with
  | nil =>
    simp only [List.nil_append]
    rcases hr with h | ⟨a, t, hat, hpa⟩
    · subst h; exact ⟨rfl, rfl⟩
    · subst hat
      constructor
      · simp [List.takeWhile_cons, hpa]
      · simp [List.dropWhile_cons, hpa]
  | cons x xs ih =>
    have hx : p x = true := hl x (by simp)
    have ih' := ih (fun y hy => hl y (by simp [hy]))
    simp only [List.cons_append, List.takeWhile_cons, List.dropWhile_cons, hx,
      if_pos]
    exact ⟨by rw [ih'.1], by rw [ih'.2]⟩

theorem parseNum_digits (n : Nat) (rest : List Nat)
    (hrest : rest = [] ∨ ∃ a t, rest = a :: t ∧ isDigitCode a = false) :
    parseNum (natDigits n ++ rest) = some (n, rest) := by
  have hall : ∀ x ∈ natDigits n, isDigitCode x = true := by
    intro x hx
    have := natDigits_digits n x hx
    simp [isDigitCode]
    omega
  have htw := takeWhile_append_of_all isDigitCode (natDigits n) rest hall hrest
  unfold parseNum
  rw [htw.1, htw.2, if_neg (natDigits_ne_nil n), natDigits_val]

theorem parseStr_clean (s rest : List Nat)
    (hs : ∀ c ∈ s, c ≠ 34 ∧ c ≠ 92) :
    parseStr (s ++ 34 :: rest) = some (s, rest) := by
  induction s with
  | nil =>
    rw [List.nil_append, parseStr, if_pos rfl]
  | cons c t ih =>
    have hc := hs c (by simp)
    rw [List.cons_append, parseStr, if_neg hc.1, if_neg hc.2,
      ih (fun x hx => hs x (by simp [hx]))]

theorem parseValue_num (n : Nat) (rest : List Nat)
    (hrest : rest = [] ∨ ∃ a t, rest = a :: t ∧ isDigitCode a = false) :
    parseValue (natDigits n ++ rest) = some (JVal.num n, rest) := by
  obtain ⟨d, ds, hds⟩ : ∃ d ds, natDigits n = d :: ds := by
    cases hc : natDigits n with
    | nil => exact absurd hc (natDigits_ne_nil n)
    | cons d ds => exact ⟨d, ds, rfl⟩
  have hd : 48 ≤ d ∧ d ≤ 57 := natDigits_digits n d (by rw [hds]; simp)
  rw [hds, List.cons_append, parseValue, if_neg (by omega),
    if_pos (by simp [isDigitCode]; omega), ← List.cons_append, ← hds,
    parseNum_digits n rest hrest]

theorem parseValue_str (s rest : List Nat)
    (hs : ∀ c ∈ s, c ≠ 34 ∧ c ≠ 92) :
    parseValue (34 :: (s ++ 34 :: rest)) = some (JVal.str s, rest) := by
  rw [parseValue, if_pos rfl, parseStr_clean s rest hs]

theorem parseMembers_ws (f : Nat) (c : Nat) (l : List Nat)
    (hc : jsonWs c = true) :
    parseMembers (f + 1) (c :: l) = parseMembers (f + 1) l := by
  rw [parseMembers, parseMembers, skipWs_cons_ws c l hc]

theorem parseMembers_num_comma (f : Nat) (key : List Nat) (n : Nat)
    (rest : List Nat) (hkey : ∀ c ∈ key, c ≠ 34 ∧ c ≠ 92) :
    parseMembers (f + 1)
      (34 :: (key ++ 34 :: 58 :: 32 :: (natDigits n ++ 44 :: rest)))
      = match parseMembers f rest with
        | none => none
        | some x => some ((key, JVal.num n) :: x.1, x.2) := by
  obtain ⟨d, ds, hds⟩ : ∃ d ds, natDigits n = d :: ds := by
    cases hc : natDigits n with
    | nil => exact absurd hc (natDigits_ne_nil n)
    | cons d ds => exact ⟨d, ds, rfl⟩
  have hd : 48 ≤ d ∧ d ≤ 57 := natDigits_digits n d (by rw [hds]; simp)
  have h1 := skipWs_cons_not 34
    (key ++ 34 :: 58 :: 32 :: (natDigits n ++ 44 :: rest)) (by decide)
  have h2 := parseStr_clean key
    (58 :: 32 :: (natDigits n ++ 44 :: rest)) hkey
  have h3 := skipWs_cons_not 58 (32 :: (natDigits n ++ 44 :: rest)) (by decide)
  have h4 := skipWs_cons_ws 32 (natDigits n ++ 44 :: rest) (by decide)
  have h5 : skipWs (natDigits n ++ 44 :: rest) = natDigits n ++ 44 :: rest := by
    rw [hds, List.cons_append]
    exact skipWs_cons_not d _ (by simp [jsonWs]; omega)
  have h6 := parseValue_num n (44 :: rest) (Or.inr ⟨44, rest, rfl, by decide⟩)
  have h7 := skipWs_cons_not 44 rest (by decide)
  rw [parseMembers]
  simp only [h1, h2, h3, h4, h5, h6, h7, reduceIte]
  cases parseMembers f rest with
  | none => rfl
  | some x => cases x with | mk ms r => rfl

theorem parseMembers_str_close (f : Nat) (key s' : List Nat)
    (hkey : ∀ c ∈ key, c ≠ 34 ∧ c ≠ 92)
    (hs' : ∀ c ∈ s', c ≠ 34 ∧ c ≠ 92) :
    parseMembers (f + 1)
      (34 :: (key ++ 34 :: 58 :: 32 :: (34 :: (s' ++ 34 :: 125 :: []))))
      = some ([(key, JVal.str s')], []) := by
  have h1 := skipWs_cons_not 34
    (key ++ 34 :: 58 :: 32 :: (34 :: (s' ++ 34 :: 125 :: []))) (by decide)
  have h2 := parseStr_clean key
    (58 :: 32 :: (34 :: (s' ++ 34 :: 125 :: []))) hkey
  have h3 := skipWs_cons_not 58 (32 :: (34 :: (s' ++ 34 :: 125 :: []))) (by decide)
  have h4 := skipWs_cons_ws 32 (34 :: (s' ++ 34 :: 125 :: [])) (by decide)
  have h5 := skipWs_cons_not 34 (s' ++ 34 :: 125 :: []) (by decide)
  have h6 := parseValue_str s' (125 :: []) hs'
  have h7 := skipWs_cons_not 125 [] (by decide)
  rw [parseMembers]
  simp only [h1, h2, h3, h4, h5, h6, h7, reduceIte]
  rw [if_neg (by omega)]

theorem parseMembers_state (f : Nat) (v t : Nat) (nn : List Nat)
    (hnn : ∀ c ∈ nn, c ≠ 34 ∧ c ≠ 92) :
    parseMembers (f + 3)
      (34 :: (codes "voting_session_id" ++ 34 :: 58 :: 32 ::
        (natDigits v ++ 44 :: (32 :: (34 :: (codes "timestamp" ++
          34 :: 58 :: 32 :: (natDigits t ++ 44 :: (32 :: (34 ::
            (codes "nonce" ++ 34 :: 58 :: 32 ::
              (34 :: (nn ++ 34 :: 125 :: []))))))))))))
      = some ([(codes "voting_session_id", JVal.num v),
               (codes "timestamp", JVal.num t),
               (codes "nonce", JVal.str nn)], []) := by
  rw [show f + 3 = (f + 2) + 1 from rfl,
    parseMembers_num_comma (f + 2) (codes "voting_session_id") v _ (by decide)]
  rw [show f + 2 = (f + 1) + 1 from rfl,
    parseMembers_ws (f + 1) 32 _ (by decide),
    parseMembers_num_comma (f + 1) (codes "timestamp") t _ (by decide)]
  rw [show f + 1 = f + 1 from rfl,
    parseMembers_ws f 32 _ (by decide),
    parseMembers_str_close f (codes "nonce") nn (by decide) hnn]

/-- The `secrets.token_urlsafe` alphabet (letters, digits, `-`, `_`). -/
def tokenUrlsafeChar (c : Nat) : Bool :=
  (65 ≤ c && c ≤ 90) || (97 ≤ c && c ≤ 122) || (48 ≤ c && c ≤ 57) ||
    c == 45 || c == 95

theorem tokenChar_facts (c : Nat) (h : tokenUrlsafeChar c = true) :
    c ≠ 34 ∧ c ≠ 92 ∧ c < 128 := by
  simp only [tokenUrlsafeChar, Bool.or_eq_true, Bool.and_eq_true,
    decide_eq_true_eq, beq_iff_eq] at h
  omega

theorem parseJsonObject_dumps (p : StatePayload)
    (hnn : ∀ c ∈ p.nonce, c ≠ 34 ∧ c ≠ 92) :
    parseJsonObject (jsonDumpsState p)
      = some [(codes "voting_session_id", JVal.num p.voting_session_id),
              (codes "timestamp", JVal.num p.timestamp),
              (codes "nonce", JVal.str p.nonce)] := by
  have e1 : codes "\x7b\"voting_session_id\": "
      = [123, 34] ++ (codes "voting_session_id" ++ [34, 58, 32]) := by decide
  have e2 : codes ", \"timestamp\": "
      = [44, 32, 34] ++ (codes "timestamp" ++ [34, 58, 32]) := by decide
  have e3 : codes ", \"nonce\": \""
      = [44, 32, 34] ++ (codes "nonce" ++ [34, 58, 32, 34]) := by decide
  have e4 : codes "\"\x7d" = [34, 125] := by decide
  have hshape : jsonDumpsState p
      = 123 :: (34 :: (codes "voting_session_id" ++ 34 :: 58 :: 32 ::
        (natDigits p.voting_session_id ++ 44 :: (32 :: (34 ::
          (codes "timestamp" ++ 34 :: 58 :: 32 ::
            (natDigits p.timestamp ++ 44 :: (32 :: (34 ::
              (codes "nonce" ++ 34 :: 58 :: 32 ::
                (34 :: (p.nonce ++ 34 :: 125 :: [])))))))))))) := by
    rw [jsonDumpsState, e1, e2, e3, e4]
    simp [List.append_assoc]
  rw [hshape, parseJsonObject]
  rw [skipWs_cons_not 123 _ (by decide)]
  split
  next heq => exact absurd heq (by simp)
  next c rest heq =>
    rw [List.cons.injEq] at heq
    obtain ⟨hc, hrest⟩ := heq
    subst hc
    subst hrest
    rw [if_pos rfl]
    rw [skipWs_cons_not 34 _ (by decide)]
    split
    next heq2 => exact absurd heq2 (by simp)
    next c2 rest2 heq2 =>
      rw [List.cons.injEq] at heq2
      obtain ⟨hc2, hrest2⟩ := heq2
      subst hc2
      subst hrest2
      rw [if_neg (by omega)]
      have hvsl : (codes "voting_session_id").length = 17 := by decide
      have hfuel : ((34 : Nat) :: (codes "voting_session_id" ++ 34 :: 58 :: 32 ::
          (natDigits p.voting_session_id ++ 44 :: (32 :: (34 ::
            (codes "timestamp" ++ 34 :: 58 :: 32 ::
              (natDigits p.timestamp ++ 44 :: (32 :: (34 ::
                (codes "nonce" ++ 34 :: 58 :: 32 ::
                  (34 :: (p.nonce ++ 34 :: 125 :: [])))))))))))).length + 1
          = ((codes "voting_session_id" ++ 34 :: 58 :: 32 ::
          (natDigits p.voting_session_id ++ 44 :: (32 :: (34 ::
            (codes "timestamp" ++ 34 :: 58 :: 32 ::
              (natDigits p.timestamp ++ 44 :: (32 :: (34 ::
                (codes "nonce" ++ 34 :: 58 :: 32 ::
                  (34 :: (p.nonce ++ 34 :: 125 :: [])))))))))))).length - 1 + 3 := by
        simp only [List.length_cons, List.length_append, hvsl]
        omega
      rw [hfuel, parseMembers_state _ p.voting_session_id p.timestamp p.nonce hnn]
      rfl

theorem jsonDumpsState_lt (p : StatePayload)
    (hnn : ∀ c ∈ p.nonce, c < 128) :
    ∀ c ∈ jsonDumpsState p, c < 1114112 := by
  intro c hc
  have l1 : ∀ c ∈ codes "\x7b\"voting_session_id\": ", c < 1114112 := by decide
  have l2 : ∀ c ∈ codes ", \"timestamp\": ", c < 1114112 := by decide
  have l3 : ∀ c ∈ codes ", \"nonce\": \"", c < 1114112 := by decide
  have l4 : ∀ c ∈ codes "\"\x7d", c < 1114112 := by decide
  rw [jsonDumpsState] at hc
  simp only [List.append_assoc, List.mem_append] at hc
  rcases hc with h | h | h | h | h | h | h
  · exact l1 c h
  · have := natDigits_digits p.voting_session_id c h
    omega
  · exact l2 c h
  · have := natDigits_digits p.timestamp c h
    omega
  · exact l3 c h
  · have := hnn c h
    omega
  · exact l4 c h

theorem lookupMember_state (v t : Nat) (nn : List Nat) :
    lookupMember
      [(codes "voting_session_id", JVal.num v),
       (codes "timestamp", JVal.num t),
       (codes "nonce", JVal.str nn)] (codes "voting_session_id")
      = some (JVal.num v) := by
  rw [lookupMember, lookupMember, lookupMember, lookupMember]
  rw [if_neg (by decide), if_neg (by decide), if_pos rfl]

/-- The state produced by login leg 1 decodes on the callback to the same
`voting_session_id`. -/
theorem callbackDecodeState_roundtrip (p : StatePayload)
    (hvs : p.voting_session_id ≠ 0)
    (hnn : ∀ c ∈ p.nonce, tokenUrlsafeChar c = true) :
    callbackDecodeState (some (loginStateParam p))
      = .decoded p.voting_session_id := by
  have hclean : ∀ c ∈ p.nonce, c ≠ 34 ∧ c ≠ 92 := fun c hc =>
    ⟨(tokenChar_facts c (hnn c hc)).1, (tokenChar_facts c (hnn c hc)).2.1⟩
  have hlt128 : ∀ c ∈ p.nonce, c < 128 := fun c hc =>
    (tokenChar_facts c (hnn c hc)).2.2
  have hlt := jsonDumpsState_lt p hlt128
  have h1 : urlsafeB64Decode (b64Encode (utf8Encode (jsonDumpsState p)))
      = some (utf8Encode (jsonDumpsState p)) :=
    urlsafeB64Decode_encode _ (utf8Encode_lt _ hlt)
  have h2 : utf8Decode (utf8Encode (jsonDumpsState p))
      = some (jsonDumpsState p) := utf8Decode_encode _ hlt
  have h3 := parseJsonObject_dumps p hclean
  have h4 := lookupMember_state p.voting_session_id p.timestamp p.nonce
  rw [callbackDecodeState, loginStateParam]
  simp only [h1, h2, h3, h4]
  rw [if_neg hvs]

set_option maxRecDepth 100000 in
/-- C4 counterexample: the callback does not detect tampering.  Flipping one
character of a state honestly produced by login leg 1 (position 35, `0` to
`A`, which lands inside the base64 group covering the `timestamp` region)
still base64-decodes, still parses as JSON, and the callback accepts it and
recovers `voting_session_id = 1` instead of rejecting with `InvalidState`. -/
theorem C4_tampered_state_not_detected :
    ((loginStateParam ⟨1, 1600000000, codes "AbCdEfGhIjKlMnOpQrStUv"⟩).set 35 65
        ≠ loginStateParam ⟨1, 1600000000, codes "AbCdEfGhIjKlMnOpQrStUv"⟩) ∧
    callbackDecodeState (some ((loginStateParam
        ⟨1, 1600000000, codes "AbCdEfGhIjKlMnOpQrStUv"⟩).set 35 65))
      = .decoded 1 := by
  constructor
  · decide
  · decide

/-- C4 (amended): the state produced by login leg 1 is base64url of the JSON
object with keys `voting_session_id`, `timestamp`, `nonce`, and decoding a
produced state on the callback recovers the same `voting_session_id`; a
missing state yields the 400 missing-state response and an undecodable or
unparsable state yields the 400 `InvalidState` response rather than a crash
or a login.  However, tampering is only detected when it makes the state
undecodable: a tampered state that still decodes is accepted (see the
counterexample), so the blanket tamper-detection part of the original claim
does not hold. -/
theorem C4_state_encoding_amended :
    (∀ p : StatePayload, p.voting_session_id ≠ 0 →
      (∀ c ∈ p.nonce, tokenUrlsafeChar c = true) →
      loginStateParam p = b64Encode (utf8Encode (jsonDumpsState p)) ∧
      callbackDecodeState (some (loginStateParam p))
        = .decoded p.voting_session_id) ∧
    callbackDecodeState none = .missingState ∧
    (∀ s, urlsafeB64Decode s = none →
      callbackDecodeState (some s) = .invalidState) ∧
    (∀ s bytes, urlsafeB64Decode s = some bytes → utf8Decode bytes = none →
      callbackDecodeState (some s) = .invalidState) ∧
    (∀ s bytes cps, urlsafeB64Decode s = some bytes →
      utf8Decode bytes = some cps → parseJsonObject cps = none →
      callbackDecodeState (some s) = .invalidState) := by
  refine ⟨?_, rfl, ?_, ?_, ?_⟩
  · intro p hvs hnn
    exact ⟨rfl, callbackDecodeState_roundtrip p hvs hnn⟩
  · intro s h
    simp only [callbackDecodeState, h]
  · intro s bytes h1 h2
    simp only [callbackDecodeState, h1, h2]
  · intro s bytes cps h1 h2 h3
    simp only [callbackDecodeState, h1, h2, h3]

/-- Witness for C4 at a concrete payload and a concrete garbage state. -/
theorem C4_state_encoding_amended_witness :
    callbackDecodeState (some (loginStateParam
        ⟨1, 1600000000, codes "AbCdEfGhIjKlMnOpQrStUv"⟩)) = .decoded 1 ∧
    callbackDecodeState (some (codes "A")) = .invalidState :=
  ⟨(C4_state_encoding_amended.1 ⟨1, 1600000000, codes "AbCdEfGhIjKlMnOpQrStUv"⟩
      (by decide) (by decide)).2,
    C4_state_encoding_amended.2.2.1 (codes "A") (by decide)⟩

/-! ## Field encryption (`encrypt_data` / `decrypt_data`)

`_get_fernet_key` derives one Fernet key deterministically from
`settings.ENCRYPTION_KEY` (PBKDF2 over the secret with a salt derived from
the same secret), so both wrappers operate with the same key.  The Fernet
primitive itself is the external `cryptography.fernet` library, which the
specification declares an opaque encrypt/decrypt pair out of scope. -/

/-- Byte-wise XOR of two lists (up to the shorter length). -/
def zipXor (a b : List Nat) : List Nat :=
  (a.zip b).map fun x => x.1 ^^^ x.2

/-- Keystream blocks: 32 bytes per counter value. -/
def fernetKeystreamBlocks (key iv : List Nat) : Nat → List Nat
  | 0 => []
  | k + 1 => fernetKeystreamBlocks key iv k ++ sha256Bytes (key ++ iv ++ [k])

/-- Modelled from the spec: the Fernet encryption primitive (the external
`cryptography.fernet` library, not part of this repository; the spec treats
it as an opaque `encrypt(plaintext)->blob` / `decrypt(blob)->plaintext`
pair with fresh per-call randomness).  It is modelled as an IV-prefixed
stream cipher: keystream bytes derived from key and IV. -/
def fernetKeystream (key iv : List Nat) (n : Nat) : List Nat :=
  (fernetKeystreamBlocks key iv (n / 32 + 1)).take n

/-- Fernet token: the 16-byte IV followed by the masked plaintext. -/
def fernetEncrypt (key iv pt : List Nat) : List Nat :=
  iv ++ zipXor pt (fernetKeystream key iv pt.length)

/-- Fernet decryption: strip the IV, unmask; `none` models `InvalidToken`. -/
def fernetDecrypt (key tok : List Nat) : Option (List Nat) :=
  if tok.length < 16 then none
  else some (zipXor (tok.drop 16)
    (fernetKeystream key (tok.take 16) (tok.drop 16).length))

/-- A Lean string from code points. -/
def stringOfCodes (l : List Nat) : String :=
  ⟨l.map Char.ofNat⟩

/-- `crypto_utils.encrypt_data`: `None` for falsy input, else the Fernet
token over the UTF-8 plaintext; the library's fresh IV is an explicit
argument, the key is the settings-derived key shared with `decrypt_data`. -/
def encrypt_data (key iv : List Nat) (s : String) : Option (List Nat) :=
  if s = "" then none
  else some (fernetEncrypt key iv (utf8Encode (codes s)))

/-- `crypto_utils.decrypt_data`: `None` for falsy input, else Fernet
decryption followed by UTF-8 decoding (`none` models the raised errors). -/
def decrypt_data (key : List Nat) (tok : List Nat) : Option String :=
  if tok = [] then none
  else
    match fernetDecrypt key tok with
    | none => none
    | some bytes =>
      match utf8Decode bytes with
      | none => none
      | some cps => some (stringOfCodes cps)

theorem zipXor_cancel (a : List Nat) :
    ∀ b, a.length ≤ b.length → zipXor (zipXor a b) b = a := by
  induction a with
  | nil => intro b h; rfl
  | cons x xs ih =>
    intro b h
    cases b with
    | nil => simp at h
    | cons y ys =>
      show zipXor ((x ^^^ y) :: zipXor xs ys) (y :: ys) = x :: xs
      show (x ^^^ y ^^^ y) :: zipXor (zipXor xs ys) ys = x :: xs
      rw [Nat.xor_assoc, Nat.xor_self, Nat.xor_zero,
        ih ys (by simpa using h)]

theorem fernetKeystreamBlocks_length (key iv : List Nat) :
    ∀ k, (fernetKeystreamBlocks key iv k).length = 32 * k := by
  intro k
  induction k with
  | zero => rfl
  | succ n ih =>
    rw [fernetKeystreamBlocks, List.length_append, ih, sha256Bytes_length]
    omega

theorem fernetKeystream_length (key iv : List Nat) (n : Nat) :
    (fernetKeystream key iv n).length = n := by
  rw [fernetKeystream, List.length_take, fernetKeystreamBlocks_length]
  omega

theorem codes_lt (s : String) : ∀ c ∈ codes s, c < 1114112 := by
  intro c hc
  rw [codes, List.mem_map] at hc
  obtain ⟨ch, _, hch⟩ := hc
  subst hch
  have hv := ch.valid
  have hdef : ch.toNat = ch.val.toNat := rfl
  rcases hv with h | h
  · have : ch.val.toNat < 55296 := h
    omega
  · have : ch.val.toNat < 1114112 := h.2
    omega

theorem stringOfCodes_codes (s : String) : stringOfCodes (codes s) = s := by
  rw [stringOfCodes, codes, List.map_map]
  have : (Char.ofNat ∘ Char.toNat) = id := by
    funext c
    exact Char.ofNat_toNat c
  rw [this, List.map_id]

theorem fernetDecrypt_encrypt (key iv pt : List Nat) (hiv : iv.length = 16) :
    fernetDecrypt key (fernetEncrypt key iv pt) = some pt := by
  have hzl : (zipXor pt (fernetKeystream key iv pt.length)).length
      = pt.length := by
    rw [zipXor, List.length_map, List.length_zip, fernetKeystream_length]
    omega
  rw [fernetEncrypt, fernetDecrypt, if_neg (by
    rw [List.length_append, hiv]
    omega)]
  rw [← hiv, List.take_left, List.drop_left, hzl]
  rw [zipXor_cancel pt _ (by rw [fernetKeystream_length])]

/-- C9: for every nonempty string `s` and any two distinct fresh IVs,
`decrypt_data` inverts `encrypt_data`; the two encryptions of the same
plaintext are different ciphertexts and both decrypt back to `s`; and
`encrypt_data` returns `None` exactly on empty input. -/
theorem C9_encrypt_decrypt_spec (key iv1 iv2 : List Nat) (s : String)
    (hiv1 : iv1.length = 16) (hiv2 : iv2.length = 16) (hne : iv1 ≠ iv2)
    (hs : s ≠ "") :
    (∀ t : String, encrypt_data key iv1 t = none ↔ t = "") ∧
    (∀ tok, encrypt_data key iv1 s = some tok →
      decrypt_data key tok = some s) ∧
    encrypt_data key iv1 s ≠ encrypt_data key iv2 s ∧
    (∀ tok, encrypt_data key iv2 s = some tok →
      decrypt_data key tok = some s) := by
  have hround : ∀ iv : List Nat, iv.length = 16 → ∀ tok,
      encrypt_data key iv s = some tok → decrypt_data key tok = some s := by
    intro iv hiv tok htok
    rw [encrypt_data, if_neg hs] at htok
    have htok' : tok = fernetEncrypt key iv (utf8Encode (codes s)) :=
      (Option.some.injEq _ _ ▸ htok).symm
    subst htok'
    rw [decrypt_data, if_neg (by
      intro hnil
      have := congrArg List.length hnil
      rw [fernetEncrypt, List.length_append, hiv] at this
      simp at this)]
    simp only [fernetDecrypt_encrypt key iv _ hiv,
      utf8Decode_encode _ (codes_lt s), stringOfCodes_codes]
  refine ⟨?_, hround iv1 hiv1, ?_, hround iv2 hiv2⟩
  · intro t
    constructor
    · intro h
      by_contra ht
      rw [encrypt_data, if_neg ht] at h
      exact Option.noConfusion h
    · intro h
      rw [encrypt_data, if_pos h]
  · rw [encrypt_data, if_neg hs, encrypt_data, if_neg hs]
    intro hcontra
    rw [Option.some.injEq] at hcontra
    apply hne
    have h1 := congrArg (List.take 16) hcontra
    rw [fernetEncrypt, fernetEncrypt, ← hiv1, List.take_left] at h1
    rw [hiv1, ← hiv2, List.take_left] at h1
    exact h1

/-- Witness for C9 at a concrete key, IV pair and plaintext. -/
theorem C9_encrypt_decrypt_spec_witness :
    decrypt_data (codes "k") (fernetEncrypt (codes "k")
      (List.replicate 16 0) (utf8Encode (codes "vote"))) = some "vote" :=
  (C9_encrypt_decrypt_spec (codes "k") (List.replicate 16 0)
    (1 :: List.replicate 15 0) "vote" (by decide) (by decide) (by decide)
    (by decide)).2.1 _ (by rw [encrypt_data, if_neg (by decide)])

/-! ## Data model (`authentication/models.py`, `voting/models.py`)

Rows carry the columns the Python models declare — and only those: the
`Citizen` model has no `first_name_encrypted`, `last_name_encrypted`,
`last_access` or `is_active` column, and `CitizenHasVoted` has no
`ip_address` column, although the views pass those names.  Django raises
`TypeError` from `Model.__init__` for an unknown keyword argument and
`ValueError` from `save(update_fields=...)` for an unknown field name; both
are modelled through the declared field-name lists below. -/

/-- `authentication.models.Municipality`. -/
structure Municipality where
  id : Nat
  name : String
  ipa_code : String
  cap : String
deriving DecidableEq

/-- `authentication.models.Citizen`: municipality FK, fiscal-code hash,
encrypted fiscal code and email, registration timestamp. -/
structure Citizen where
  id : Nat
  municipality_id : Nat
  fiscal_code_hash : String
  fiscal_code_encrypted : Option String
  email_encrypted : Option String
  registration_date : Nat
deriving DecidableEq

/-- The declared column names of `Citizen` (for kwargs validation). -/
def citizenFields : List String :=
  ["id", "municipality", "fiscal_code_hash", "fiscal_code_encrypted",
   "email_encrypted", "registration_date"]

/-- `voting.models.VotingSession`. -/
structure VotingSession where
  id : Nat
  municipality_id : Nat
  title : String
  description : String
  type : String
  start_date : Nat
  end_date : Nat
  is_active : Bool
  results_public : Bool
deriving DecidableEq

/-- `VotingSession.is_open`: active and `start_date <= now <= end_date`. -/
def VotingSession.is_open (vs : VotingSession) (now : Nat) : Bool :=
  vs.is_active && (decide (vs.start_date ≤ now) && decide (now ≤ vs.end_date))

/-- `voting.models.Option` (`Option` is taken in Lean). -/
structure VoteOption where
  id : Nat
  voting_session_id : Nat
  text : String
  display_order : Int
  image_url : Option String
deriving DecidableEq

/-- `voting.models.CitizenHasVoted`: citizen FK, session FK, timestamp.
The model declares no `ip_address` column. -/
structure CitizenHasVoted where
  id : Nat
  citizen_id : Nat
  voting_session_id : Nat
  timestamp : Nat
deriving DecidableEq

/-- The declared column names of `CitizenHasVoted`. -/
def citizenHasVotedFields : List String :=
  ["id", "citizen", "voting_session", "timestamp"]

/-- `voting.models.Result`: session FK, option FK, timestamp, random
64-hex anonymization hash; no citizen reference. -/
structure ResultRow where
  id : Nat
  voting_session_id : Nat
  option_id : Nat
  timestamp : Nat
  session_hash : String
deriving DecidableEq

/-- The relational store, one row list per model. -/
structure DB where
  municipalities : List Municipality
  citizens : List Citizen
  votingSessions : List VotingSession
  options : List VoteOption
  citizenHasVoted : List CitizenHasVoted
  results : List ResultRow
deriving DecidableEq

def DB.findMunicipality (db : DB) (i : Nat) : Option Municipality :=
  db.municipalities.find? fun m => m.id == i

def DB.findCitizen (db : DB) (i : Nat) : Option Citizen :=
  db.citizens.find? fun c => c.id == i

def DB.findVotingSession (db : DB) (i : Nat) : Option VotingSession :=
  db.votingSessions.find? fun v => v.id == i

def DB.findOption (db : DB) (i : Nat) : Option VoteOption :=
  db.options.find? fun o => o.id == i

/-- `Model.__init__` accepts `objects.create(**kwargs)` iff every keyword
names a declared field (else `TypeError`). -/
def djangoCreateAccepts (fields kwargs : List String) : Bool :=
  kwargs.all fun k => fields.contains k

/-- `save(update_fields=...)` succeeds iff every name is a declared
concrete field (else `ValueError`). -/
def djangoSaveAccepts (fields updateFields : List String) : Bool :=
  updateFields.all fun k => fields.contains k

/-- The keyword arguments of the `CitizenHasVoted.objects.create` call in
`CastVoteView.post`. -/
def castVoteCreateKwargs : List String :=
  ["citizen", "voting_session", "ip_address"]

/-- The keyword arguments of `Citizen.objects.create` in
`SPIDCallbackView.post`: `municipality` plus the `encrypt_citizen_data`
dictionary keys. -/
def citizenCreateKwargs : List String :=
  ["municipality", "fiscal_code_hash", "fiscal_code_encrypted",
   "first_name_encrypted", "last_name_encrypted", "email_encrypted"]

/-! ## Vote casting (`voting/serializers.py` `CastVoteSerializer`,
`voting/views.py` `CastVoteView.post`) -/

/-- The server-side session established by the SPID callback. -/
structure SessionStore where
  citizen_id : Option Nat
  municipality_id : Option Nat
  voting_session_id : Option Nat
  authenticated_via : Option String
deriving DecidableEq

/-- The response of `CastVoteView.post`, by status class. -/
inductive VoteOutcome where
  | unauthenticated (detail : String)
  | invalidData (errors : List String)
  | notFound
  | accessDenied (detail : String)
  | alreadyVoted
  | created (timestamp : Nat) (voting_session_id : Nat) (title : String)
  | internalError (detail : String)
deriving DecidableEq

/-- `CastVoteSerializer.validate_voting_session_id`. -/
def validateVotingSessionId (db : DB) (now : Nat) (vsid : Nat) :
    List String :=
  match db.findVotingSession vsid with
  | none => ["Voting session not found."]
  | some vs =>
    if ¬ vs.is_active then ["Voting session is not active."]
    else if ¬ vs.is_open now then ["Voting is closed."]
    else []

/-- `CastVoteSerializer.validate_option_id`. -/
def validateOptionId (db : DB) (oid : Nat) : List String :=
  if (db.findOption oid).isSome then [] else ["Option not found."]

/-- Does a `CitizenHasVoted` row exist for this citizen and session? -/
def hasVotedRow (db : DB) (cid vsid : Nat) : Bool :=
  db.citizenHasVoted.any fun r =>
    r.citizen_id == cid && r.voting_session_id == vsid

/-- `CastVoteSerializer.validate` (cross-field; runs only after the field
validators pass): option must belong to the session, citizen must not have
voted. -/
def validateCross (db : DB) (cid vsid oid : Nat) : List String :=
  match db.findOption oid with
  | none => ["Option not found."]
  | some o =>
    if o.voting_session_id ≠ vsid then
      ["Option does not belong to this voting session."]
    else if hasVotedRow db cid vsid then
      ["You have already voted in this session."]
    else []

/-- The name of a municipality row (for response messages). -/
def municipalityName (db : DB) (i : Nat) : String :=
  match db.findMunicipality i with
  | some m => m.name
  | none => ""

/-- `CastVoteView.post`: authentication from the session store, serializer
validation, 404 re-fetch, municipality check, then the atomic commit block.
`now` is the request instant, `ip` the extracted client address and `sh`
the `generate_session_hash()` value drawn for the `Result` row.  The
`CitizenHasVoted.objects.create` call passes `ip_address`, which is not a
declared column, so inside the atomic block Django raises `TypeError`, the
transaction rolls back, and the outer handler returns the 500 response. -/
def castVotePost (db : DB) (now : Nat) (store : SessionStore)
    (vsid oid : Nat) (ip sh : String) : VoteOutcome × DB :=
  match store.citizen_id with
  | none => (.unauthenticated "You must be logged in via SPID to vote", db)
  | some cid =>
    match db.findCitizen cid with
    | none => (.unauthenticated "Your authentication session is invalid", db)
    | some citizen =>
      let fieldErrs := validateVotingSessionId db now vsid ++
        validateOptionId db oid
      if fieldErrs ≠ [] then (.invalidData fieldErrs, db)
      else
        let crossErrs := validateCross db citizen.id vsid oid
        if crossErrs ≠ [] then (.invalidData crossErrs, db)
        else
          match db.findVotingSession vsid, db.findOption oid with
          | some vs, some opt =>
            if citizen.municipality_id ≠ vs.municipality_id then
              (.accessDenied ("This voting is only for residents of " ++
                municipalityName db vs.municipality_id), db)
            else
              if hasVotedRow db citizen.id vs.id then (.alreadyVoted, db)
              else
                if djangoCreateAccepts citizenHasVotedFields
                    castVoteCreateKwargs ∧
                   djangoCreateAccepts
                    ["id", "voting_session", "option", "timestamp",
                     "session_hash"]
                    ["voting_session", "option", "session_hash"] then
                  let chv : CitizenHasVoted :=
                    ⟨db.citizenHasVoted.length + 1, citizen.id, vs.id, now⟩
                  let res : ResultRow :=
                    ⟨db.results.length + 1, vs.id, opt.id, now, sh⟩
                  (.created now vsid vs.title,
                    { db with citizenHasVoted := db.citizenHasVoted ++ [chv],
                              results := db.results ++ [res] })
                else
                  (.internalError
                    ("CitizenHasVoted() got unexpected keyword arguments: " ++
                      "ip_address"), db)
          | _, _ => (.notFound, db)

/-! ## Results aggregation (`voting/serializers.py`) -/

/-- `Option.get_vote_count`: `self.results.count()`. -/
def optionVoteCount (db : DB) (o : VoteOption) : Nat :=
  (db.results.filter fun r => r.option_id == o.id).length

/-- `Result.objects.filter(voting_session=obj).count()`. -/
def sessionResultCount (db : DB) (vsid : Nat) : Nat :=
  (db.results.filter fun r => r.voting_session_id == vsid).length

/-- `CitizenHasVoted.objects.filter(voting_session=obj).count()`. -/
def sessionVoterCount (db : DB) (vsid : Nat) : Nat :=
  (db.citizenHasVoted.filter fun r => r.voting_session_id == vsid).length

/-- `OptionSerializer.get_vote_count`: the count only when results are
public or voting has ended, otherwise `None`. -/
def optionSerializerVoteCount (db : DB) (now : Nat) (o : VoteOption) :
    Option Nat :=
  match db.findVotingSession o.voting_session_id with
  | none => none
  | some vs =>
    if vs.results_public || ¬ vs.is_open now then some (optionVoteCount db o)
    else none

/-- `round(vote_count / total * 100, 2)` on the exact rational, expressed
in hundredths of a percent; `0` when there are no votes.  Python `round`
is round-half-to-even. -/
def pctCenti (voteCount total : Nat) : Nat :=
  if total = 0 then 0
  else
    let num := voteCount * 10000
    let q := num / total
    let r := num % total
    if 2 * r < total then q
    else if total < 2 * r then q + 1
    else if q % 2 = 0 then q else q + 1

/-- One entry of `VotingResultSerializer.get_results`. -/
structure ResultEntry where
  option_id : Nat
  option_text : String
  vote_count : Nat
  percentage : Nat
deriving DecidableEq

/-- `obj.options.all()` under `Option.Meta.ordering`: the session's options
by ascending `display_order` (stable). -/
def sessionOptions (db : DB) (vsid : Nat) : List VoteOption :=
  List.insertionSort (fun a b => a.display_order ≤ b.display_order)
    (db.options.filter fun o => o.voting_session_id == vsid)

/-- Descending-votes order used by `results.sort(key=..., reverse=True)`. -/
def byVotesDesc (a b : ResultEntry) : Prop :=
  b.vote_count ≤ a.vote_count

instance : DecidableRel byVotesDesc := fun a b =>
  Nat.decLe b.vote_count a.vote_count

instance : IsTotal ResultEntry byVotesDesc :=
  ⟨fun a b => Nat.le_total b.vote_count a.vote_count⟩

instance : IsTrans ResultEntry byVotesDesc :=
  ⟨fun _ _ _ hab hbc => le_trans hbc hab⟩

/-- `VotingResultSerializer.get_results`: per-option count and rounded
percentage, sorted by descending vote count (stable sort, as Python's). -/
def getResults (db : DB) (vs : VotingSession) : List ResultEntry :=
  let total := sessionResultCount db vs.id
  List.insertionSort (fun a b => byVotesDesc a b)
    ((sessionOptions db vs.id).map fun o =>
      ⟨o.id, o.text, optionVoteCount db o,
        pctCenti (optionVoteCount db o) total⟩)

/-! ## SPID callback, citizen-resolution phase (`authentication/views.py`)

Steps 3 and 6-8 of `SPIDCallbackView.post`, after the state has produced a
`voting_session_id` and the token has been verified into a claim set. -/

/-- The normalized claims of a verified SPID token. -/
structure SpidUserData where
  fiscal_code : String
  first_name : Option String
  last_name : Option String
  email : Option String
deriving DecidableEq

/-- The response of the callback's citizen phase, by status class. -/
inductive CallbackOutcome where
  | sessionNotFound
  | accessDenied (message : String)
  | badRequest (detail : String)
  | internalError (detail : String)
  | success (citizen_id municipality_id voting_session_id : Nat)
      (created : Bool)
deriving DecidableEq

/-- Steps 3 and 6-8 of `SPIDCallbackView.post`.  The existing-citizen match
branch calls `citizen.save(update_fields=['last_access'])`, but `Citizen`
declares no `last_access` column, so Django raises `ValueError`, which the
view's `except ValueError` handler turns into the 400 `Invalid SPID
response`.  The new-citizen branch calls `Citizen.objects.create` with the
`encrypt_citizen_data` keys including `first_name_encrypted` and
`last_name_encrypted`, which are not columns either, so Django raises
`TypeError` and the generic handler returns the 500 response.  `fcEnc` and
`emailEnc` stand for the `encrypt_data` blobs of the new citizen.  Returns
the outcome, the database, and the session store established (if any). -/
def spidCallbackCitizenPhase (db : DB) (vsid : Nat) (user : SpidUserData)
    (fcEnc : Option String) (emailEnc : Option String) :
    CallbackOutcome × DB × Option SessionStore :=
  match db.findVotingSession vsid with
  | none => (.sessionNotFound, db, none)
  | some vs =>
    match db.findMunicipality vs.municipality_id with
    | none => (.internalError "missing municipality row", db, none)
    | some munic =>
      match hash_fiscal_code user.fiscal_code with
      | none => (.internalError "empty fiscal code", db, none)
      | some fch =>
        match db.citizens.find? fun c => c.fiscal_code_hash == fch with
        | some citizen =>
          match db.findMunicipality citizen.municipality_id with
          | none => (.internalError "missing municipality row", db, none)
          | some cmun =>
            if cmun.ipa_code ≠ munic.ipa_code then
              (.accessDenied ("This voting is only for residents of " ++
                munic.name ++ ". You are registered in " ++ cmun.name ++ "."),
                db, none)
            else
              if djangoSaveAccepts citizenFields ["last_access"] then
                (.success citizen.id munic.id vsid false, db,
                  some ⟨some citizen.id, some munic.id, some vsid,
                    some "SPID"⟩)
              else
                (.badRequest "Invalid SPID response", db, none)
        | none =>
          if djangoCreateAccepts citizenFields citizenCreateKwargs then
            let newCit : Citizen :=
              ⟨db.citizens.length + 1, munic.id, fch, fcEnc, emailEnc, 0⟩
            (.success newCit.id munic.id vsid true,
              { db with citizens := db.citizens ++ [newCit] },
              some ⟨some newCit.id, some munic.id, some vsid, some "SPID"⟩)
          else
            (.internalError
              ("Citizen() got unexpected keyword arguments: " ++
                "first_name_encrypted, last_name_encrypted"), db, none)

/-! ## Vote-commit theorems -/

theorem castVotePost_db_eq (db : DB) (now : Nat) (store : SessionStore)
    (vsid oid : Nat) (ip sh : String) :
    (castVotePost db now store vsid oid ip sh).2 = db := by
  unfold castVotePost
  dsimp only []
  repeat' split <;> try rfl

theorem castVotePost_never_created (db : DB) (now : Nat)
    (store : SessionStore) (vsid oid : Nat) (ip sh : String)
    (t v : Nat) (ti : String) :
    (castVotePost db now store vsid oid ip sh).1 ≠ .created t v ti := by
  unfold castVotePost
  dsimp only []
  repeat' split <;> try (intro hcontra; exact VoteOutcome.noConfusion hcontra)

/-- One municipality, one registered citizen, one open session (window
0..100) with two options, empty ledgers: the spec's happy-path input. -/
def voteDB : DB :=
  { municipalities := [⟨1, "Springfield", "c_h501", "00100"⟩],
    citizens := [⟨1, 1, "h", some "enc", none, 0⟩],
    votingSessions :=
      [⟨1, 1, "Referendum X", "desc", "referendum", 0, 100, true, false⟩],
    options := [⟨1, 1, "Yes", 0, none⟩, ⟨2, 1, "No", 1, none⟩],
    citizenHasVoted := [],
    results := [] }

/-- The session store a successful SPID login would establish. -/
def authedStore : SessionStore := ⟨some 1, some 1, some 1, some "SPID"⟩

/-- C1 (code bug): for a fresh citizen, an open session, an option of that
session and a matching municipality — all preconditions of the claim — the
vote commit does not succeed: `CitizenHasVoted.objects.create` is passed
`ip_address`, which is not a declared column, Django raises `TypeError`
inside the atomic block, the transaction rolls back, and the endpoint
returns the 500 response with no `CitizenHasVoted` and no `Result` row
written, where the claim promises a success payload and one row in each
ledger. -/
theorem C1_commit_vote_crashes :
    (validateVotingSessionId voteDB 50 1 = [] ∧
     validateOptionId voteDB 1 = [] ∧
     validateCross voteDB 1 1 1 = [] ∧
     hasVotedRow voteDB 1 1 = false ∧
     (voteDB.findCitizen 1).map Citizen.municipality_id = some 1 ∧
     (voteDB.findVotingSession 1).map VotingSession.municipality_id
       = some 1) ∧
    castVotePost voteDB 50 authedStore 1 1 "203.0.113.7" "a1b2c3"
      = (.internalError
          "CitizenHasVoted() got unexpected keyword arguments: ip_address",
         voteDB) := by
  constructor
  · decide
  · decide

/-- `n` serialized commit attempts with the same session store and vote. -/
def castVoteSeq (db : DB) (now : Nat) (store : SessionStore)
    (vsid oid : Nat) (ip sh : String) : Nat → List VoteOutcome × DB
  | 0 => ([], db)
  | n + 1 =>
    let prev := castVoteSeq db now store vsid oid ip sh n
    let step := castVotePost prev.2 now store vsid oid ip sh
    (prev.1 ++ [step.1], step.2)

/-- C6 (code bug): serialized commit attempts for the same (citizen,
session) never produce a single success with the rest `AlreadyVoted`: no
attempt can ever return the created response (the `ip_address` `TypeError`
makes the success branch unreachable), and concretely three attempts on
the happy-path database all yield the 500 response and write nothing. -/
theorem C6_concurrent_commits_zero_successes :
    (∀ (db : DB) (now : Nat) (store : SessionStore) (vsid oid : Nat)
      (ip sh : String) (t v : Nat) (ti : String),
      (castVotePost db now store vsid oid ip sh).1 ≠ .created t v ti) ∧
    castVoteSeq voteDB 50 authedStore 1 1 "203.0.113.7" "a1b2c3" 3
      = (List.replicate 3
          (.internalError
            "CitizenHasVoted() got unexpected keyword arguments: ip_address"),
         voteDB) := by
  refine ⟨fun db now store vsid oid ip sh t v ti =>
    castVotePost_never_created db now store vsid oid ip sh t v ti, ?_⟩
  decide

/-- Witness for C6: no success on the concrete happy-path input either. -/
theorem C6_concurrent_commits_zero_successes_witness :
    (castVotePost voteDB 50 authedStore 1 1 "203.0.113.7" "a1b2c3").1
      ≠ .created 50 1 "Referendum X" :=
  C6_concurrent_commits_zero_successes.1 voteDB 50 authedStore 1 1
    "203.0.113.7" "a1b2c3" 50 1 "Referendum X"

/-- C2: an existing `CitizenHasVoted` row makes the commit attempt abort
with the already-voted 400 and no writes; and in every execution the two
ledger inserts take effect together or not at all — in the code as written
every path leaves the database unchanged (the success branch is
unreachable), so the per-session voter-ledger and tally counts always stay
equal. -/
theorem C2_already_voted_and_atomicity (db : DB) (now : Nat)
    (store : SessionStore) (vsid oid : Nat) (ip sh : String) :
    (∀ cid citizen o, store.citizen_id = some cid →
      db.findCitizen cid = some citizen →
      validateVotingSessionId db now vsid = [] →
      validateOptionId db oid = [] →
      db.findOption oid = some o →
      o.voting_session_id = vsid →
      hasVotedRow db citizen.id vsid = true →
      castVotePost db now store vsid oid ip sh
        = (.invalidData ["You have already voted in this session."], db)) ∧
    (castVotePost db now store vsid oid ip sh).2 = db ∧
    (∀ v, sessionVoterCount db v = sessionResultCount db v →
      sessionVoterCount (castVotePost db now store vsid oid ip sh).2 v
        = sessionResultCount (castVotePost db now store vsid oid ip sh).2 v)
    := by
  refine ⟨?_, castVotePost_db_eq db now store vsid oid ip sh, ?_⟩
  · intro cid citizen o h1 h2 h3 h4 h5 h6 h7
    unfold castVotePost
    simp only [h1, h2, h3, h4, List.nil_append, ne_eq, validateCross, h5, h6,
      h7, reduceIte]
    simp
  · intro v hv
    rw [castVotePost_db_eq]
    exact hv

/-- A database where the single citizen has already voted in session 1. -/
def votedDB : DB := { voteDB with citizenHasVoted := [⟨1, 1, 1, 10⟩] }

/-- Witness for C2 on a concrete database with an existing ledger row. -/
theorem C2_already_voted_and_atomicity_witness :
    castVotePost votedDB 50 authedStore 1 1 "203.0.113.7" "a1b2c3"
      = (.invalidData ["You have already voted in this session."], votedDB) :=
  (C2_already_voted_and_atomicity votedDB 50 authedStore 1 1 "203.0.113.7"
      "a1b2c3").1 1 ⟨1, 1, "h", some "enc", none, 0⟩ ⟨1, 1, "Yes", 0, none⟩
    (by decide) (by decide) (by decide) (by decide) (by decide) (by decide)
    (by decide)

/-- C5: the three commit preconditions fail with their distinct errors and
no writes.  A session that is not open yields the 400 closed-voting error
(`Voting is closed.` when only the date window fails, `Voting session is
not active.` when the active flag is off); an option that does not belong
to the session yields the 400 option-mismatch error; a citizen of a
different municipality yields the 403 naming the session's municipality.
In each case the database is returned unchanged. -/
theorem C5_commit_preconditions (db : DB) (now : Nat) (store : SessionStore)
    (vsid oid : Nat) (ip sh : String) (cid : Nat) (citizen : Citizen)
    (vs : VotingSession) (o : VoteOption)
    (hcid : store.citizen_id = some cid)
    (hcit : db.findCitizen cid = some citizen)
    (hvs : db.findVotingSession vsid = some vs)
    (ho : db.findOption oid = some o) :
    (vs.is_open now = false →
      castVotePost db now store vsid oid ip sh
        = (.invalidData ((if vs.is_active then ["Voting is closed."]
            else ["Voting session is not active."]) ++ validateOptionId db oid),
           db)) ∧
    (vs.is_open now = true → o.voting_session_id ≠ vsid →
      castVotePost db now store vsid oid ip sh
        = (.invalidData ["Option does not belong to this voting session."],
           db)) ∧
    (vs.is_open now = true → o.voting_session_id = vsid →
      hasVotedRow db citizen.id vsid = false →
      citizen.municipality_id ≠ vs.municipality_id →
      castVotePost db now store vsid oid ip sh
        = (.accessDenied ("This voting is only for residents of " ++
            municipalityName db vs.municipality_id), db)) := by
  have hval_open : vs.is_open now = true →
      validateVotingSessionId db now vsid = [] := by
    intro hop
    have hact : vs.is_active = true := by
      rw [VotingSession.is_open] at hop
      exact (Bool.and_eq_true _ _ |>.mp hop).1
    rw [validateVotingSessionId]
    simp only [hvs]
    rw [if_neg (by simp [hact]), if_neg (by simp [hop])]
  have hopt : validateOptionId db oid = [] := by
    simp [validateOptionId, ho]
  refine ⟨?_, ?_, ?_⟩
  · intro hop
    have hval : validateVotingSessionId db now vsid
        = (if vs.is_active then ["Voting is closed."]
           else ["Voting session is not active."]) := by
      rw [validateVotingSessionId]
      simp only [hvs]
      by_cases hact : vs.is_active = true
      · rw [if_neg (by simp [hact]), if_pos (by simp [hop]), if_pos hact]
      · rw [if_pos hact, if_neg hact]
    unfold castVotePost
    simp only [hcid, hcit, hval]
    rw [if_pos (by by_cases hact : vs.is_active = true <;> simp [hact])]
  · intro hop hbelong
    have hval := hval_open hop
    unfold castVotePost
    simp only [hcid, hcit, hval, hopt, List.nil_append, ne_eq,
      validateCross, ho, reduceIte]
    simp [hbelong]
  · intro hop heq hnv hmun
    have hval := hval_open hop
    unfold castVotePost
    simp only [hcid, hcit, hval, hopt, List.nil_append, ne_eq,
      validateCross, ho, heq, hnv, hvs, reduceIte]
    simp [hmun]

/-- A second municipality, a closed session 2, and an option 3 that
belongs to session 2, for exercising each precondition failure. -/
def mixedDB : DB :=
  { voteDB with
    municipalities := voteDB.municipalities ++ [⟨2, "Shelbyville", "c_h502", "00200"⟩],
    citizens := voteDB.citizens ++ [⟨2, 2, "h2", some "enc2", none, 0⟩],
    votingSessions := voteDB.votingSessions ++
      [⟨2, 1, "Old vote", "d", "survey", 0, 20, true, false⟩],
    options := voteDB.options ++ [⟨3, 2, "Maybe", 0, none⟩] }

/-- Witness for C5: each precondition failure on concrete inputs. -/
theorem C5_commit_preconditions_witness :
    castVotePost mixedDB 50 authedStore 2 3 "203.0.113.7" "a1b2c3"
      = (.invalidData ["Voting is closed."], mixedDB) ∧
    castVotePost mixedDB 50 authedStore 1 3 "203.0.113.7" "a1b2c3"
      = (.invalidData ["Option does not belong to this voting session."],
         mixedDB) ∧
    castVotePost mixedDB 50 ⟨some 2, some 2, some 1, some "SPID"⟩ 1 1
        "203.0.113.7" "a1b2c3"
      = (.accessDenied "This voting is only for residents of Springfield",
         mixedDB) := by
  refine ⟨?_, ?_, ?_⟩
  · have h := (C5_commit_preconditions mixedDB 50 authedStore 2 3
      "203.0.113.7" "a1b2c3" 1 ⟨1, 1, "h", some "enc", none, 0⟩
      ⟨2, 1, "Old vote", "d", "survey", 0, 20, true, false⟩
      ⟨3, 2, "Maybe", 0, none⟩ (by decide) (by decide) (by decide)
      (by decide)).1 (by decide)
    rw [h]
    decide
  · exact (C5_commit_preconditions mixedDB 50 authedStore 1 3
      "203.0.113.7" "a1b2c3" 1 ⟨1, 1, "h", some "enc", none, 0⟩
      ⟨1, 1, "Referendum X", "desc", "referendum", 0, 100, true, false⟩
      ⟨3, 2, "Maybe", 0, none⟩ (by decide) (by decide) (by decide)
      (by decide)).2.1 (by decide) (by decide)
  · have h := (C5_commit_preconditions mixedDB 50
      ⟨some 2, some 2, some 1, some "SPID"⟩ 1 1 "203.0.113.7" "a1b2c3" 2
      ⟨2, 2, "h2", some "enc2", none, 0⟩
      ⟨1, 1, "Referendum X", "desc", "referendum", 0, 100, true, false⟩
      ⟨1, 1, "Yes", 0, none⟩ (by decide) (by decide) (by decide)
      (by decide)).2.2 (by decide) (by decide) (by decide) (by decide)
    rw [h]
    decide

/-- C10: `CastVoteView.post` reads only `citizen_id` from the server-side
session; two requests whose stores agree on `citizen_id` but differ
arbitrarily in the stored `voting_session_id`, `municipality_id` or
auth-method marker produce identical outcomes and identical databases. -/
theorem C10_session_store_independence (db : DB) (now : Nat)
    (s1 s2 : SessionStore) (vsid oid : Nat) (ip sh : String)
    (h : s1.citizen_id = s2.citizen_id) :
    castVotePost db now s1 vsid oid ip sh
      = castVotePost db now s2 vsid oid ip sh := by
  unfold castVotePost
  rw [h]

/-- Witness for C10: stores for different login sessions, same citizen. -/
theorem C10_session_store_independence_witness :
    castVotePost voteDB 50 ⟨some 1, some 1, some 1, some "SPID"⟩ 1 1
        "203.0.113.7" "a1b2c3"
      = castVotePost voteDB 50 ⟨some 1, some 2, some 99, none⟩ 1 1
        "203.0.113.7" "a1b2c3" :=
  C10_session_store_independence voteDB 50 _ _ 1 1 "203.0.113.7" "a1b2c3"
    rfl

/-! ## Callback and results theorems -/

/-- Two municipalities; citizen 1 registered in municipality 1 under the
stored hash of the example fiscal code; one open session per municipality. -/
def callbackDB : DB :=
  { municipalities := [⟨1, "Springfield", "c_h501", "00100"⟩,
                       ⟨2, "Shelbyville", "c_h502", "00200"⟩],
    citizens := [⟨1, 1, (hash_fiscal_code "RSSMRA80A01H501Z").getD "",
      some "enc", none, 0⟩],
    votingSessions :=
      [⟨1, 1, "Referendum X", "d", "referendum", 0, 100, true, false⟩,
       ⟨2, 2, "Other vote", "d", "survey", 0, 100, true, false⟩],
    options := [⟨1, 1, "Yes", 0, none⟩],
    citizenHasVoted := [],
    results := [] }

/-- Verified claims of the registered citizen. -/
def spidUser : SpidUserData :=
  ⟨"RSSMRA80A01H501Z", some "Mario", some "Rossi", some "mario@example.com"⟩

/-- Verified claims of a citizen not yet registered. -/
def spidUserNew : SpidUserData :=
  ⟨"VRDLGI85B02H501X", some "Luigi", some "Verdi", none⟩

/-- C3 (code bug): after token verification and fiscal-code hashing, only
the municipality-mismatch branch behaves as claimed (403 naming both
municipalities, no session).  On a municipality match the code calls
`citizen.save(update_fields=['last_access'])`, but `Citizen` has no
`last_access` column, so Django raises `ValueError` and the request ends
as the 400 `Invalid SPID response` with no last-access touch (the column
does not exist) and no authenticated session.  For an unknown citizen,
`Citizen.objects.create` receives `first_name_encrypted` and
`last_name_encrypted`, which are not columns, so Django raises `TypeError`
and the request ends as a 500 with no citizen created and no session. -/
theorem C3_callback_citizen_phase_broken :
    spidCallbackCitizenPhase callbackDB 2 spidUser (some "fe") none
      = (.accessDenied ("This voting is only for residents of Shelbyville." ++
          " You are registered in Springfield."), callbackDB, none) ∧
    spidCallbackCitizenPhase callbackDB 1 spidUser (some "fe") none
      = (.badRequest "Invalid SPID response", callbackDB, none) ∧
    spidCallbackCitizenPhase callbackDB 1 spidUserNew (some "fe2") none
      = (.internalError ("Citizen() got unexpected keyword arguments: " ++
          "first_name_encrypted, last_name_encrypted"), callbackDB, none) := by
  refine ⟨?_, ?_, ?_⟩ <;> decide

/-- The spec's results example: 3 votes for A, 1 for B, results public. -/
def exampleResultsVS : VotingSession :=
  ⟨1, 1, "T", "d", "referendum", 0, 100, true, true⟩

/-- The database of the results example. -/
def exampleResultsDB : DB :=
  { municipalities := [⟨1, "M", "c", "0"⟩],
    citizens := [],
    votingSessions := [exampleResultsVS],
    options := [⟨1, 1, "A", 0, none⟩, ⟨2, 1, "B", 1, none⟩],
    citizenHasVoted := [],
    results := [⟨1, 1, 1, 0, "r1"⟩, ⟨2, 1, 1, 0, "r2"⟩,
                ⟨3, 1, 1, 0, "r3"⟩, ⟨4, 1, 2, 0, "r4"⟩] }

/-- C7: the results computation returns one entry per session option with
the option's tally count and `round(count/total*100, 2)` (0 when the total
is 0, here in hundredths of a percent), sorted by descending vote count by
a stable — hence deterministic — sort; vote counts in the option
serializer are exposed only when the session's `results_public` flag is
set or the session is no longer open, and are `None` otherwise.  On the
spec's example the result is A 75.00, B 25.00. -/
theorem C7_results_spec (db : DB) (vs : VotingSession) (now : Nat) :
    List.Sorted byVotesDesc (getResults db vs) ∧
    List.Perm (getResults db vs) ((sessionOptions db vs.id).map fun o =>
      ⟨o.id, o.text, optionVoteCount db o,
        pctCenti (optionVoteCount db o) (sessionResultCount db vs.id)⟩) ∧
    (∀ e ∈ getResults db vs, ∃ o ∈ sessionOptions db vs.id,
      e.option_id = o.id ∧ e.option_text = o.text ∧
      e.vote_count
        = (db.results.filter fun r => r.option_id == o.id).length ∧
      e.percentage = pctCenti e.vote_count
        (db.results.filter fun r => r.voting_session_id == vs.id).length) ∧
    (∀ (o : VoteOption) (vs' : VotingSession),
      db.findVotingSession o.voting_session_id = some vs' →
      optionSerializerVoteCount db now o
        = if vs'.results_public || ¬ vs'.is_open now
          then some (optionVoteCount db o) else none) ∧
    getResults exampleResultsDB exampleResultsVS
      = [⟨1, "A", 3, 7500⟩, ⟨2, "B", 1, 2500⟩] := by
  have hperm : List.Perm (getResults db vs)
      ((sessionOptions db vs.id).map fun o =>
        (⟨o.id, o.text, optionVoteCount db o,
          pctCenti (optionVoteCount db o) (sessionResultCount db vs.id)⟩ :
          ResultEntry)) := by
    unfold getResults
    exact List.perm_insertionSort _ _
  refine ⟨?_, hperm, ?_, ?_, ?_⟩
  · unfold getResults
    exact List.sorted_insertionSort _ _
  · intro e he
    have hmem := hperm.mem_iff.mp he
    rw [List.mem_map] at hmem
    obtain ⟨o, ho, heq⟩ := hmem
    refine ⟨o, ho, ?_, ?_, ?_, ?_⟩ <;> rw [← heq]
    · rfl
    · rfl
  · intro o vs' h
    rw [optionSerializerVoteCount]
    simp only [h]
  · decide

/-- Witness for C7: exposure on the public example session. -/
theorem C7_results_spec_witness :
    optionSerializerVoteCount exampleResultsDB 50 ⟨1, 1, "A", 0, none⟩
      = some 3 := by
  have h := (C7_results_spec exampleResultsDB exampleResultsVS 50).2.2.2.1
    ⟨1, 1, "A", 0, none⟩ exampleResultsVS (by decide)
  rw [h]
  decide

end GaVoting
